import Mathlib

/-!
Shallow embedding of the gsmtui application core (src/app.rs, src/validation.rs,
src/event.rs, src/secret_client.rs, src/project_client.rs).

Conventions of the embedding:
* Rust `String` is Lean `String`; `name.len()` (UTF-8 bytes) is `String.utf8ByteSize`.
* ratatui `ListState` is modelled by its `selected` field, an `Option Nat`
  (`ListState::default()` is `none`, `select(Some i)` stores `some i`).
* The lazily created `SecretClient` is `Option String` (the project id the
  handle was built for).
* Every external client call is cooperative and returns a `Result`; the
  environment `Env` fixes the outcome each call would produce, so handlers are
  pure functions of the state and the environment.
* A Rust panic (e.g. `self.client.as_ref().unwrap()` with `client == None`,
  or `String::remove` out of bounds) is modelled by `Option`: `none` is a panic.
-/

namespace Gsmtui

/-- Different input modes for text entry (src/app.rs `InputMode`). -/
inductive InputMode where
  | NewSecretName
  | NewVersionValue
  deriving DecidableEq, Repr

/-- Actions that require confirmation (src/app.rs `ConfirmAction`). -/
inductive ConfirmAction where
  | DeleteSecret (name : String)
  | DestroyVersion (secret : String) (version : String)
  deriving DecidableEq, Repr

/-- The different views/screens in the application (src/app.rs `View`). -/
inductive View where
  | AuthRequired
  | SecretsList
  | SecretDetail
  | Input (mode : InputMode)
  | Confirm (action : ConfirmAction)
  | ProjectSelector
  deriving DecidableEq, Repr

/-- Actions that need to be handled by the main loop (src/app.rs `AppAction`). -/
inductive AppAction where
  | Quit
  | RunGcloudAuth
  deriving DecidableEq, Repr

/-- Status message to display to the user (src/app.rs `StatusMessage`). -/
structure StatusMessage where
  text : String
  is_error : Bool
  deriving DecidableEq, Repr

/-- The state of a secret version (src/secret_client.rs `VersionState`). -/
inductive VersionState where
  | Enabled
  | Disabled
  | Destroyed
  | Unknown
  deriving DecidableEq, Repr

/-- Replication policy for a secret (src/secret_client.rs `ReplicationPolicy`). -/
inductive ReplicationPolicy where
  | Automatic
  | UserManaged (locations : List String)
  deriving DecidableEq, Repr

/-- Rotation configuration for a secret (src/secret_client.rs `RotationConfig`). -/
structure RotationConfig where
  rotation_period : Option String
  next_rotation_time : Option String
  deriving DecidableEq, Repr

/-- Information about a secret (src/secret_client.rs `SecretInfo`). -/
structure SecretInfo where
  short_name : String
  create_time : String
  labels : List (String × String)
  annotations : List (String × String)
  replication : ReplicationPolicy
  topics : List String
  version_aliases : List (String × Int)
  rotation : Option RotationConfig
  version_destroy_ttl : Option String
  deriving DecidableEq, Repr

/-- Information about a secret version (src/secret_client.rs `VersionInfo`). -/
structure VersionInfo where
  version : String
  state : VersionState
  create_time : String
  destroy_time : Option String
  scheduled_destroy_time : Option String
  has_checksum : Bool
  deriving DecidableEq, Repr

/-- Information about a GCP project (src/project_client.rs `ProjectInfo`). -/
structure ProjectInfo where
  project_id : String
  display_name : String
  deriving DecidableEq, Repr

/-- User actions (src/event.rs `Action`).  The variants `CursorLeft` and
`CursorRight` are matched by the input handler in src/app.rs and listed in the
event-source interface of the spec, so they are included here. -/
inductive Action where
  | Quit
  | Up
  | Down
  | Top
  | Bottom
  | Enter
  | Back
  | Refresh
  | NewSecret
  | NewVersion
  | Delete
  | Copy
  | ToggleSecretValue
  | Help
  | Enable
  | Disable
  | OpenProjectSelector
  | Char (c : Char)
  | Backspace
  | CursorLeft
  | CursorRight
  deriving DecidableEq, Repr

deriving instance DecidableEq for Except

/-- Outcomes of the external collaborator calls (spec section 6): each field is
the `Result` that the corresponding Secret Client / Project Client / clipboard
call would return if the handler performs it during one event. -/
structure Env where
  new_client : Except String Unit
  list_secrets : Except String (List SecretInfo)
  list_projects : Except String (List ProjectInfo)
  list_versions : Except String (List VersionInfo)
  create_secret : Except String SecretInfo
  add_version : Except String VersionInfo
  delete_secret : Except String Unit
  destroy_version : Except String VersionInfo
  enable_version : Except String VersionInfo
  disable_version : Except String VersionInfo
  access_version : Except String String
  clipboard_new : Except Unit Unit
  clipboard_set_ok : Bool
  deriving DecidableEq, Repr

/-- Main application state (src/app.rs `App`). -/
structure App where
  project_id : String
  client : Option String
  current_view : View
  previous_view : Option View
  is_loading : Bool
  status : Option StatusMessage
  secrets : List SecretInfo
  secrets_state : Option Nat
  current_secret : Option SecretInfo
  versions : List VersionInfo
  versions_state : Option Nat
  revealed_value : Option String
  input_buffer : String
  cursor_position : Nat
  show_help : Bool
  available_projects : List ProjectInfo
  projects_state : Option Nat
  deriving DecidableEq, Repr

/-- Validates a secret name according to GCP Secret Manager rules
(src/validation.rs `validate_secret_name`).  `name.len()` in Rust counts UTF-8
bytes, hence `String.utf8ByteSize`; `is_ascii_alphabetic` is `Char.isAlpha`
and `is_ascii_alphanumeric` is `Char.isAlphanum`, both ASCII-only in Lean. -/
def validate_secret_name (name : String) : Except String Unit :=
  if name.isEmpty then
    Except.error "Secret name cannot be empty"
  else if name.utf8ByteSize > 255 then
    Except.error "Secret name must be 255 characters or less"
  else
    match name.toList with
    | [] => Except.error "Secret name cannot be empty"  -- unreachable: name is nonempty
    | first :: _ =>
      if ¬ first.isAlpha then
        Except.error "Secret name must start with a letter"
      else
        match name.toList.find? (fun c => !c.isAlphanum && c != '_' && c != '-') with
        | some c =>
          Except.error
            s!"Secret name can only contain letters, digits, underscores, and hyphens. Found: \x27{c}\x27"
        | none =>
          if name.toList.getLast? = some '-' then
            Except.error "Secret name cannot end with a hyphen"
          else
            Except.ok ()

namespace App

/-- Creates a new application instance (src/app.rs `App::new`). -/
def new (project_id : Option String) : App :=
  let p := match project_id with
    | some id => (View.SecretsList, id)
    | none => (View.ProjectSelector, "")
  { project_id := p.2
    client := none
    current_view := p.1
    previous_view := none
    is_loading := false
    status := none
    secrets := []
    secrets_state := none
    current_secret := none
    versions := []
    versions_state := none
    revealed_value := none
    input_buffer := ""
    cursor_position := 0
    show_help := false
    available_projects := []
    projects_state := none }

/-- Sets the status message (src/app.rs `App::set_status`). -/
def set_status (a : App) (text : String) (is_error : Bool) : App :=
  { a with status := some { text := text, is_error := is_error } }

/-- Continuation of `load_secrets` after the lazy client initialization: the
`list_secrets` call and its result handling (src/app.rs `App::load_secrets`,
body of the `match self.client.as_ref().unwrap().list_secrets().await`). -/
def load_secrets_fetch (a : App) (env : Env) : App :=
  match env.list_secrets with
  | Except.ok secrets =>
    let a1 := { a with secrets := secrets }
    let a2 := if a1.secrets.isEmpty then a1 else { a1 with secrets_state := some 0 }
    let count := a2.secrets.length
    { a2.set_status s!"Loaded {count} secrets" false with is_loading := false }
  | Except.error e =>
    { (a.set_status s!"Auth error: {e}" true) with
      current_view := View.AuthRequired, is_loading := false }

/-- Loads the list of secrets from the API (src/app.rs `App::load_secrets`).
Initializes the client lazily; a construction failure sets an error status and
switches to `AuthRequired` before attempting the list call. -/
def load_secrets (a : App) (env : Env) : App :=
  let a1 := ({ a with is_loading := true }).set_status "Loading secrets..." false
  match a1.client with
  | none =>
    match env.new_client with
    | Except.ok _ => load_secrets_fetch { a1 with client := some a1.project_id } env
    | Except.error e =>
      { (a1.set_status s!"Auth error: {e}" true) with
        current_view := View.AuthRequired, is_loading := false }
  | some _ => load_secrets_fetch a1 env

/-- Loads the list of available projects (src/app.rs `App::load_projects`). -/
def load_projects (a : App) (env : Env) : App :=
  let a1 := ({ a with is_loading := true }).set_status "Loading projects..." false
  match env.list_projects with
  | Except.ok projects =>
    let a2 := { a1 with available_projects := projects }
    let current_idx :=
      if a2.project_id.isEmpty then 0
      else (a2.available_projects.findIdx? (fun p => p.project_id = a2.project_id)).getD 0
    let a3 := if a2.available_projects.isEmpty then a2
              else { a2 with projects_state := some current_idx }
    let count := a3.available_projects.length
    { a3.set_status s!"Found {count} projects" false with is_loading := false }
  | Except.error e =>
    { (a1.set_status s!"Auth error: {e}" true) with
      current_view := View.AuthRequired, is_loading := false }

/-- Loads versions for the currently selected secret (src/app.rs
`App::load_versions`).  Note the bare `self.client.as_ref().unwrap()`: when the
client is absent this panics (`none`). -/
def load_versions (a : App) (env : Env) : Option App :=
  match a.current_secret with
  | none => some a
  | some _ =>
    let a1 := ({ a with is_loading := true }).set_status "Loading versions..." false
    match a1.client with
    | none => none
    | some _ =>
      match env.list_versions with
      | Except.ok versions =>
        let a2 := { a1 with versions := versions }
        let a3 := if a2.versions.isEmpty then a2 else { a2 with versions_state := some 0 }
        let count := a3.versions.length
        some { a3.set_status s!"Loaded {count} versions" false with is_loading := false }
      | Except.error e =>
        some { a1.set_status s!"Error loading versions: {e}" true with is_loading := false }

/-- Handles actions in the auth required view (src/app.rs
`App::handle_auth_required_action`); it mutates nothing. -/
def handle_auth_required_action (_a : App) (action : Action) : Option AppAction :=
  match action with
  | Action.Quit => some AppAction.Quit
  | Action.Enter => some AppAction.RunGcloudAuth
  | _ => none

/-- Called after successful gcloud auth (src/app.rs `App::on_auth_success`). -/
def on_auth_success (a : App) (env : Env) : App :=
  let a1 := a.set_status "Authentication successful!" false
  load_projects { a1 with current_view := View.ProjectSelector } env

/-- Called when gcloud auth fails (src/app.rs `App::on_auth_failure`). -/
def on_auth_failure (a : App) (error : Option String) : App :=
  match error with
  | some e => a.set_status s!"Failed to run gcloud: {e}" true
  | none => a.set_status "Authentication was cancelled or failed" true

/-- Moves the secrets selection up with wraparound (src/app.rs
`App::select_previous_secret`). -/
def select_previous_secret (a : App) : App :=
  let len := a.secrets.length
  if len = 0 then a
  else
    let current := a.secrets_state.getD 0
    let new := if current = 0 then len - 1 else current - 1
    { a with secrets_state := some new }

/-- Moves the secrets selection down with wraparound (src/app.rs
`App::select_next_secret`). -/
def select_next_secret (a : App) : App :=
  let len := a.secrets.length
  if len = 0 then a
  else
    let current := a.secrets_state.getD 0
    let new := if current ≥ len - 1 then 0 else current + 1
    { a with secrets_state := some new }

/-- Selects the first secret (src/app.rs `App::select_first_secret`). -/
def select_first_secret (a : App) : App :=
  if a.secrets.isEmpty then a else { a with secrets_state := some 0 }

/-- Selects the last secret (src/app.rs `App::select_last_secret`). -/
def select_last_secret (a : App) : App :=
  let len := a.secrets.length
  if len > 0 then { a with secrets_state := some (len - 1) } else a

/-- Moves the versions selection up with wraparound and hides the revealed
value (src/app.rs `App::select_previous_version`). -/
def select_previous_version (a : App) : App :=
  let len := a.versions.length
  if len = 0 then a
  else
    let current := a.versions_state.getD 0
    let new := if current = 0 then len - 1 else current - 1
    { a with versions_state := some new, revealed_value := none }

/-- Moves the versions selection down with wraparound and hides the revealed
value (src/app.rs `App::select_next_version`). -/
def select_next_version (a : App) : App :=
  let len := a.versions.length
  if len = 0 then a
  else
    let current := a.versions_state.getD 0
    let new := if current ≥ len - 1 then 0 else current + 1
    { a with versions_state := some new, revealed_value := none }

/-- Selects the first version and hides the revealed value (src/app.rs
`App::select_first_version`). -/
def select_first_version (a : App) : App :=
  if a.versions.isEmpty then a
  else { a with versions_state := some 0, revealed_value := none }

/-- Selects the last version and hides the revealed value (src/app.rs
`App::select_last_version`). -/
def select_last_version (a : App) : App :=
  let len := a.versions.length
  if len > 0 then { a with versions_state := some (len - 1), revealed_value := none }
  else a

/-- Moves the projects selection up with wraparound (src/app.rs
`App::select_previous_project`). -/
def select_previous_project (a : App) : App :=
  let len := a.available_projects.length
  if len = 0 then a
  else
    let current := a.projects_state.getD 0
    let new := if current = 0 then len - 1 else current - 1
    { a with projects_state := some new }

/-- Moves the projects selection down with wraparound (src/app.rs
`App::select_next_project`). -/
def select_next_project (a : App) : App :=
  let len := a.available_projects.length
  if len = 0 then a
  else
    let current := a.projects_state.getD 0
    let new := if current ≥ len - 1 then 0 else current + 1
    { a with projects_state := some new }

/-- Selects the first project (src/app.rs `App::select_first_project`). -/
def select_first_project (a : App) : App :=
  if a.available_projects.isEmpty then a else { a with projects_state := some 0 }

/-- Selects the last project (src/app.rs `App::select_last_project`). -/
def select_last_project (a : App) : App :=
  let len := a.available_projects.length
  if len > 0 then { a with projects_state := some (len - 1) } else a

/-- Goes back to the previous view (src/app.rs `App::go_back`): `take` the
recorded previous view (defaulting to `SecretsList`) and clear
`revealed_value`. -/
def go_back (a : App) : App :=
  match a.previous_view with
  | some prev => { a with current_view := prev, previous_view := none, revealed_value := none }
  | none => { a with current_view := View.SecretsList, revealed_value := none }

/-- Opens the project selector dialog (src/app.rs `App::open_project_selector`):
loads projects first, then records the (possibly already escalated) current
view and switches to `ProjectSelector`. -/
def open_project_selector (a : App) (env : Env) : App :=
  let a1 := a.load_projects env
  { a1 with previous_view := some a1.current_view, current_view := View.ProjectSelector }

/-- Selects a project and switches to it (src/app.rs `App::select_project`). -/
def select_project (a : App) (env : Env) : App :=
  match a.projects_state with
  | none => a
  | some idx =>
    match a.available_projects[idx]? with
    | none => a
    | some project =>
      let new_project_id := project.project_id
      if new_project_id = a.project_id then
        (a.set_status "Already on this project" false).go_back
      else
        let a1 := { a with
                    project_id := new_project_id, client := none,
                    secrets := [], secrets_state := none,
                    current_secret := none,
                    versions := [], versions_state := none,
                    revealed_value := none }
        let a2 := a1.set_status s!"Switched to project: {new_project_id}" false
        let a3 := { a2 with current_view := View.SecretsList, previous_view := none }
        a3.load_secrets env

/-- Enters the detail view for the selected secret (src/app.rs
`App::enter_secret_detail`). -/
def enter_secret_detail (a : App) (env : Env) : Option App :=
  match a.secrets_state with
  | none => some a
  | some idx =>
    match a.secrets[idx]? with
    | none => some a
    | some secret =>
      let a1 := { a with
                  current_secret := some secret,
                  previous_view := some View.SecretsList,
                  current_view := View.SecretDetail,
                  versions_state := none,
                  revealed_value := none }
      a1.load_versions env

/-- Starts a new-secret input session (src/app.rs `App::start_new_secret`). -/
def start_new_secret (a : App) : App :=
  { a with
    input_buffer := "", cursor_position := 0,
    previous_view := some a.current_view,
    current_view := View.Input InputMode.NewSecretName }

/-- Starts a new-version input session (src/app.rs `App::start_new_version`). -/
def start_new_version (a : App) : App :=
  { a with
    input_buffer := "", cursor_position := 0,
    previous_view := some a.current_view,
    current_view := View.Input InputMode.NewVersionValue }

/-- Submits the input buffer (src/app.rs `App::submit_input`).  The create and
add-version paths call `self.client.as_ref().unwrap()`: with the client absent
they panic (`none`). -/
def submit_input (a : App) (mode : InputMode) (env : Env) : Option App :=
  let input := a.input_buffer
  let a1 : App := { a with input_buffer := "", cursor_position := 0 }
  if input.isEmpty then
    some ((a1.set_status "Input cannot be empty" true).go_back)
  else
    match mode with
    | InputMode.NewSecretName =>
      match validate_secret_name input with
      | Except.error e => some ((a1.set_status e true).go_back)
      | Except.ok _ =>
        let a2 : App := { a1 with is_loading := true }
        match a2.client with
        | none => none
        | some _ =>
          match env.create_secret with
          | Except.ok _ =>
            let a3 := ((a2.set_status s!"Created secret: {input}" false).go_back).load_secrets env
            some { a3 with is_loading := false }
          | Except.error e =>
            some { (a2.set_status s!"Failed to create secret: {e}" true).go_back with
                   is_loading := false }
    | InputMode.NewVersionValue =>
      match a1.current_secret with
      | none => some a1
      | some _ =>
        let a2 : App := { a1 with is_loading := true }
        match a2.client with
        | none => none
        | some _ =>
          match env.add_version with
          | Except.ok v =>
            let vnum := v.version
            match ((a2.set_status s!"Added version: {vnum}" false).go_back).load_versions env with
            | none => none
            | some a3 => some { a3 with is_loading := false }
          | Except.error e =>
            some { (a2.set_status s!"Failed to add version: {e}" true).go_back with
                   is_loading := false }

/-- Character-level insertion used by `input_char`: Rust computes the byte
index of the `cursor`-th character (or the end of the string when the cursor is
past the last character) and inserts there, which at character level inserts at
position `min cursor length`. -/
def insert_char_at : Nat → Char → List Char → List Char
  | 0, c, l => c :: l
  | _ + 1, c, [] => [c]
  | n + 1, c, x :: xs => x :: insert_char_at n c xs

/-- Inserts a character at the cursor (src/app.rs `App::input_char`). -/
def input_char (a : App) (c : Char) : App :=
  { a with
    input_buffer := String.mk (insert_char_at a.cursor_position c a.input_buffer.toList),
    cursor_position := a.cursor_position + 1 }

/-- Removes the character before the cursor (src/app.rs `App::input_backspace`).
Rust takes the byte index of character `cursor - 1`, falling back to byte `0`
when that character does not exist, and calls `String::remove`, which panics
(`none`) on an empty string. -/
def input_backspace (a : App) : Option App :=
  if a.cursor_position > 0 then
    let chars := a.input_buffer.toList
    let k := if a.cursor_position - 1 < chars.length then a.cursor_position - 1 else 0
    if chars.isEmpty then none
    else some { a with
                input_buffer := String.mk (chars.eraseIdx k),
                cursor_position := a.cursor_position - 1 }
  else some a

/-- Moves the cursor one position to the left (src/app.rs `App::cursor_left`). -/
def cursor_left (a : App) : App :=
  if a.cursor_position > 0 then { a with cursor_position := a.cursor_position - 1 } else a

/-- Moves the cursor one position to the right (src/app.rs
`App::cursor_right`); `self.input_buffer.chars().count()` is the character
count `String.length`. -/
def cursor_right (a : App) : App :=
  if a.cursor_position < a.input_buffer.length then
    { a with cursor_position := a.cursor_position + 1 }
  else a

/-- Opens the delete-secret confirmation dialog (src/app.rs
`App::confirm_delete_secret`). -/
def confirm_delete_secret (a : App) : App :=
  match a.secrets_state with
  | none => a
  | some idx =>
    match a.secrets[idx]? with
    | none => a
    | some secret =>
      { a with
        previous_view := some a.current_view,
        current_view := View.Confirm (ConfirmAction.DeleteSecret secret.short_name) }

/-- Opens the destroy-version confirmation dialog (src/app.rs
`App::confirm_destroy_version`). -/
def confirm_destroy_version (a : App) : App :=
  match a.current_secret, a.versions_state with
  | some secret, some idx =>
    match a.versions[idx]? with
    | none => a
    | some version =>
      { a with
        previous_view := some a.current_view,
        current_view :=
          View.Confirm (ConfirmAction.DestroyVersion secret.short_name version.version) }
  | _, _ => a

/-- Executes a confirmed destructive action (src/app.rs
`App::execute_confirmed_action`).  Both paths unwrap the client handle. -/
def execute_confirmed_action (a : App) (action : ConfirmAction) (env : Env) : Option App :=
  match action with
  | ConfirmAction.DeleteSecret name =>
    let a1 : App := { a with is_loading := true }
    match a1.client with
    | none => none
    | some _ =>
      match env.delete_secret with
      | Except.ok _ =>
        let a2 := { a1.set_status s!"Deleted secret: {name}" false with
                    current_view := View.SecretsList, previous_view := none }
        some { a2.load_secrets env with is_loading := false }
      | Except.error e =>
        some { (a1.set_status s!"Failed to delete: {e}" true).go_back with
               is_loading := false }
  | ConfirmAction.DestroyVersion _secret_name version =>
    let a1 : App := { a with is_loading := true }
    match a1.client with
    | none => none
    | some _ =>
      match env.destroy_version with
      | Except.ok _ =>
        match ((a1.set_status s!"Destroyed version: {version}" false).go_back).load_versions env with
        | none => none
        | some a2 => some { a2 with is_loading := false }
      | Except.error e =>
        some { (a1.set_status s!"Failed to destroy: {e}" true).go_back with
               is_loading := false }

/-- Reveals or hides the selected version value (src/app.rs
`App::toggle_secret_value`).  The guard rejects `Destroyed` and `Disabled`
versions before the client is touched. -/
def toggle_secret_value (a : App) (env : Env) : Option App :=
  if a.revealed_value.isSome then
    some { a with revealed_value := none }
  else
    match a.current_secret, a.versions_state with
    | some _, some idx =>
      match a.versions[idx]? with
      | none => some a
      | some version =>
        match version.state with
        | VersionState.Destroyed =>
          some (a.set_status "Cannot access destroyed version - data is permanently gone" true)
        | VersionState.Disabled =>
          some (a.set_status "Version is disabled - press \x27e\x27 to enable it first" true)
        | _ =>
          let a1 : App := { a with is_loading := true }
          match a1.client with
          | none => none
          | some _ =>
            match env.access_version with
            | Except.ok value =>
              some { ({ a1 with revealed_value := some value }).set_status
                       "Press \x27s\x27 to hide value" false with
                     is_loading := false }
            | Except.error e =>
              some { a1.set_status s!"Failed to access: {e}" true with is_loading := false }
    | _, _ => some a

/-- Copies the selected version value to the clipboard (src/app.rs
`App::copy_secret_value`), with the same version guard as reveal. -/
def copy_secret_value (a : App) (env : Env) : Option App :=
  match a.current_secret, a.versions_state with
  | some _, some idx =>
    match a.versions[idx]? with
    | none => some a
    | some version =>
      match version.state with
      | VersionState.Destroyed =>
        some (a.set_status "Cannot copy destroyed version - data is permanently gone" true)
      | VersionState.Disabled =>
        some (a.set_status "Version is disabled - press \x27e\x27 to enable it first" true)
      | _ =>
        let a1 : App := { a with is_loading := true }
        match a1.client with
        | none => none
        | some _ =>
          match env.access_version with
          | Except.ok _ =>
            match env.clipboard_new with
            | Except.ok _ =>
              if env.clipboard_set_ok then
                some { a1.set_status "Copied to clipboard!" false with is_loading := false }
              else
                some { a1.set_status "Failed to copy to clipboard" true with is_loading := false }
            | Except.error _ =>
              some { a1.set_status "Clipboard not available" true with is_loading := false }
          | Except.error e =>
            some { a1.set_status s!"Failed to access: {e}" true with is_loading := false }
  | _, _ => some a

/-- Enables the selected version (src/app.rs `App::enable_selected_version`);
only `Disabled` versions pass the guard. -/
def enable_selected_version (a : App) (env : Env) : Option App :=
  match a.current_secret, a.versions_state with
  | some _, some idx =>
    match a.versions[idx]? with
    | none => some a
    | some version =>
      if version.state ≠ VersionState.Disabled then
        some (a.set_status "Can only enable disabled versions" true)
      else
        let a1 : App := { a with is_loading := true }
        match a1.client with
        | none => none
        | some _ =>
          match env.enable_version with
          | Except.ok _ =>
            let version_num := version.version
            match (a1.set_status s!"Enabled version: {version_num}" false).load_versions env with
            | none => none
            | some a2 => some { a2 with is_loading := false }
          | Except.error e =>
            some { a1.set_status s!"Failed to enable: {e}" true with is_loading := false }
  | _, _ => some a

/-- Disables the selected version (src/app.rs `App::disable_selected_version`);
only `Enabled` versions pass the guard. -/
def disable_selected_version (a : App) (env : Env) : Option App :=
  match a.current_secret, a.versions_state with
  | some _, some idx =>
    match a.versions[idx]? with
    | none => some a
    | some version =>
      if version.state ≠ VersionState.Enabled then
        some (a.set_status "Can only disable enabled versions" true)
      else
        let a1 : App := { a with is_loading := true }
        match a1.client with
        | none => none
        | some _ =>
          match env.disable_version with
          | Except.ok _ =>
            let version_num := version.version
            match (a1.set_status s!"Disabled version: {version_num}" false).load_versions env with
            | none => none
            | some a2 => some { a2 with is_loading := false }
          | Except.error e =>
            some { a1.set_status s!"Failed to disable: {e}" true with is_loading := false }
  | _, _ => some a

/-- Handles actions in the secrets list view (src/app.rs
`App::handle_secrets_list_action`). -/
def handle_secrets_list_action (a : App) (action : Action) (env : Env) :
    Option (App × Option AppAction) :=
  match action with
  | Action.Quit => some (a, some AppAction.Quit)
  | Action.Up => some (a.select_previous_secret, none)
  | Action.Down => some (a.select_next_secret, none)
  | Action.Top => some (a.select_first_secret, none)
  | Action.Bottom => some (a.select_last_secret, none)
  | Action.Enter => (a.enter_secret_detail env).map (fun x => (x, none))
  | Action.Refresh => some (a.load_secrets env, none)
  | Action.NewSecret => some (a.start_new_secret, none)
  | Action.Delete => some (a.confirm_delete_secret, none)
  | Action.OpenProjectSelector => some (a.open_project_selector env, none)
  | _ => some (a, none)

/-- Handles actions in the project selector view (src/app.rs
`App::handle_project_selector_action`). -/
def handle_project_selector_action (a : App) (action : Action) (env : Env) :
    Option (App × Option AppAction) :=
  match action with
  | Action.Quit => some (a, some AppAction.Quit)
  | Action.Back => some (a.go_back, none)
  | Action.Up => some (a.select_previous_project, none)
  | Action.Down => some (a.select_next_project, none)
  | Action.Top => some (a.select_first_project, none)
  | Action.Bottom => some (a.select_last_project, none)
  | Action.Enter => some (a.select_project env, none)
  | _ => some (a, none)

/-- Handles actions in the secret detail view (src/app.rs
`App::handle_secret_detail_action`). -/
def handle_secret_detail_action (a : App) (action : Action) (env : Env) :
    Option (App × Option AppAction) :=
  match action with
  | Action.Quit => some (a, some AppAction.Quit)
  | Action.Back => some (a.go_back, none)
  | Action.Up => some (a.select_previous_version, none)
  | Action.Down => some (a.select_next_version, none)
  | Action.Top => some (a.select_first_version, none)
  | Action.Bottom => some (a.select_last_version, none)
  | Action.Refresh => (a.load_versions env).map (fun x => (x, none))
  | Action.NewVersion => some (a.start_new_version, none)
  | Action.ToggleSecretValue => (a.toggle_secret_value env).map (fun x => (x, none))
  | Action.Copy => (a.copy_secret_value env).map (fun x => (x, none))
  | Action.Enable => (a.enable_selected_version env).map (fun x => (x, none))
  | Action.Disable => (a.disable_selected_version env).map (fun x => (x, none))
  | Action.Delete => some (a.confirm_destroy_version, none)
  | Action.OpenProjectSelector => some (a.open_project_selector env, none)
  | _ => some (a, none)

/-- Handles actions during text input (src/app.rs `App::handle_input_action`). -/
def handle_input_action (a : App) (action : Action) (mode : InputMode) (env : Env) :
    Option (App × Option AppAction) :=
  match action with
  | Action.Quit => some (a, some AppAction.Quit)
  | Action.Back =>
    some (({ a with input_buffer := "", cursor_position := 0 } : App).go_back, none)
  | Action.Enter => (a.submit_input mode env).map (fun x => (x, none))
  | Action.Char c => some (a.input_char c, none)
  | Action.Backspace => a.input_backspace.map (fun x => (x, none))
  | Action.CursorLeft => some (a.cursor_left, none)
  | Action.CursorRight => some (a.cursor_right, none)
  | _ => some (a, none)

/-- Handles actions in confirmation dialogs (src/app.rs
`App::handle_confirm_action`). -/
def handle_confirm_action (a : App) (action : Action) (confirm : ConfirmAction) (env : Env) :
    Option (App × Option AppAction) :=
  match action with
  | Action.Enter => (a.execute_confirmed_action confirm env).map (fun x => (x, none))
  | Action.Back => some (a.go_back, none)
  | Action.Quit => some (a.go_back, none)
  | _ => some (a, none)

/-- Top-level dispatcher (src/app.rs `App::handle_event`): help toggling and
overlay dismissal first, then confirm and input routing, then per-view
handlers.  The result is `none` when the dispatched handler panics. -/
def handle_event (a : App) (action : Action) (env : Env) :
    Option (App × Option AppAction) :=
  if action = Action.Help then
    some ({ a with show_help := !a.show_help }, none)
  else if a.show_help then
    some ({ a with show_help := false }, none)
  else
    match a.current_view with
    | View.Confirm confirm => a.handle_confirm_action action confirm env
    | View.Input mode => a.handle_input_action action mode env
    | View.AuthRequired => some (a, a.handle_auth_required_action action)
    | View.SecretsList => a.handle_secrets_list_action action env
    | View.SecretDetail => a.handle_secret_detail_action action env
    | View.ProjectSelector => a.handle_project_selector_action action env

end App

/-! ### Fixtures used by witnesses and counterexamples -/

/-- A minimal secret record, as in the repository test helper `mock_secret`. -/
def mock_secret (name : String) : SecretInfo :=
  { short_name := name
    create_time := "2024-01-01"
    labels := []
    annotations := []
    replication := ReplicationPolicy.Automatic
    topics := []
    version_aliases := []
    rotation := none
    version_destroy_ttl := none }

/-- A minimal version record, as in the repository tests. -/
def mock_version (v : String) (st : VersionState) : VersionInfo :=
  { version := v
    state := st
    create_time := "2024-01-01"
    destroy_time := none
    scheduled_destroy_time := none
    has_checksum := false }

/-- An environment in which every external call succeeds. -/
def ok_env : Env :=
  { new_client := Except.ok ()
    list_secrets := Except.ok [mock_secret "alpha"]
    list_projects := Except.ok [{ project_id := "p1", display_name := "P1" }]
    list_versions := Except.ok [mock_version "1" VersionState.Enabled]
    create_secret := Except.ok (mock_secret "alpha")
    add_version := Except.ok (mock_version "2" VersionState.Enabled)
    delete_secret := Except.ok ()
    destroy_version := Except.ok (mock_version "1" VersionState.Destroyed)
    enable_version := Except.ok (mock_version "1" VersionState.Enabled)
    disable_version := Except.ok (mock_version "1" VersionState.Disabled)
    access_version := Except.ok "value"
    clipboard_new := Except.ok ()
    clipboard_set_ok := true }

/-! ### Validation lemmas (src/validation.rs) -/

/-- Characters admitted by the secret-name rules occupy one UTF-8 byte. -/
lemma good_char_utf8Size (c : Char)
    (h : c.isAlphanum = true ∨ c = '_' ∨ c = '-') : c.utf8Size = 1 := by
  rcases h with h | h | h
  · simp [Char.isAlphanum, Char.isAlpha, Char.isDigit, Char.isUpper, Char.isLower] at h
    simp only [Char.utf8Size]
    rw [if_pos]
    rcases h with (⟨_, h2⟩ | ⟨_, h2⟩) | ⟨_, h2⟩ <;>
      · simp [UInt32.le_def, BitVec.le_def] at h2 ⊢
        omega
  · subst h; decide
  · subst h; decide

/-- The byte counter of `String.utf8ByteSize` sums the per-character sizes. -/
lemma utf8ByteSize_go_eq (l : List Char) :
    String.utf8Len l = (l.map Char.utf8Size).sum := by
  induction l with
  | nil => rfl
  | cons c cs ih => simp [String.utf8Len_cons, ih]; omega

/-- A string never has more characters than UTF-8 bytes. -/
lemma length_le_utf8ByteSize (l : List Char) :
    l.length ≤ String.utf8Len l := by
  rw [utf8ByteSize_go_eq]
  induction l with
  | nil => simp
  | cons c cs ih =>
    have := Char.utf8Size_pos c
    simp only [List.map_cons, List.sum_cons, List.length_cons]
    omega

/-- On a string of admitted characters the byte length is the char count. -/
lemma utf8ByteSize_eq_length_of_good (l : List Char)
    (h : ∀ c ∈ l, c.isAlphanum = true ∨ c = '_' ∨ c = '-') :
    String.utf8Len l = l.length := by
  rw [utf8ByteSize_go_eq]
  induction l with
  | nil => simp
  | cons c cs ih =>
    have hc := good_char_utf8Size c (h c (by simp))
    simp only [List.map_cons, List.sum_cons, List.length_cons, hc]
    rw [ih (fun x hx => h x (by simp [hx]))]
    omega

/-- The secret-name rules exactly as the spec words them (section 4.6):
non-empty, at most 255 characters, starts with an ASCII letter, only ASCII
letters, digits, underscores and hyphens, and no trailing hyphen. -/
def valid_name_spec (name : String) : Prop :=
  name.toList ≠ [] ∧
  name.toList.length ≤ 255 ∧
  (∀ c, name.toList.head? = some c → c.isAlpha = true) ∧
  (∀ c ∈ name.toList, c.isAlphanum = true ∨ c = '_' ∨ c = '-') ∧
  name.toList.getLast? ≠ some '-'

/-- A character fails the per-character scan exactly when it is not admitted. -/
lemma bad_char_iff (c : Char) :
    (!c.isAlphanum && c != '_' && c != '-') = false ↔
      (c.isAlphanum = true ∨ c = '_' ∨ c = '-') := by
  cases h : c.isAlphanum <;> by_cases h1 : c = '_' <;> by_cases h2 : c = '-' <;>
    simp [h, h1, h2]

/-- Unfolding lemma: the character list of a literal string. -/
lemma toList_mk (l : List Char) : (String.mk l).toList = l := rfl

/-- A nonempty string is not `isEmpty`. -/
lemma isEmpty_mk_false (l : List Char) (hl : l ≠ []) :
    (String.mk l).isEmpty = false := by
  rw [Bool.eq_false_iff]
  intro h
  have := (String.isEmpty_iff _).1 h
  exact hl (congrArg String.data this)

/-- The validator accepts exactly the names the spec admits. -/
lemma validate_ok_iff (name : String) :
    validate_secret_name name = Except.ok () ↔ valid_name_spec name := by
  obtain ⟨l⟩ := name
  by_cases hl : l = []
  · subst hl
    constructor
    · intro h
      simp [validate_secret_name, show (String.mk []).isEmpty = true from rfl] at h
    · rintro ⟨h1, -⟩
      exact absurd rfl h1
  · have hne := isEmpty_mk_false l hl
    obtain ⟨c, rest⟩ := (List.exists_cons_of_ne_nil hl : ∃ c rest, l = c :: rest)
    obtain ⟨rest, rfl⟩ := rest
    constructor
    · intro h
      simp only [validate_secret_name, hne, Bool.false_eq_true, if_false,
        String.utf8ByteSize_mk, toList_mk] at h
      by_cases hsz : String.utf8Len (c :: rest) > 255
      · rw [if_pos hsz] at h
        simp at h
      · rw [if_neg hsz] at h
        show valid_name_spec (String.mk (c :: rest))
        unfold valid_name_spec
        simp only [toList_mk] at h ⊢
        by_cases halpha : c.isAlpha = true
        · simp only [halpha, not_true, if_neg, ite_false, if_false] at h
          rcases hf : (c :: rest).find? (fun c => !c.isAlphanum && c != '_' && c != '-') with
            _ | ⟨c0⟩
          · rw [hf] at h
            have hgood : ∀ x ∈ c :: rest, x.isAlphanum = true ∨ x = '_' ∨ x = '-' := by
              intro x hx
              have := List.find?_eq_none.1 hf x hx
              exact (bad_char_iff x).1 (by simpa using this)
            by_cases hlast : (c :: rest).getLast? = some '-'
            · simp [hlast] at h
            · refine ⟨by simp, ?_, ?_, hgood, hlast⟩
              · have heq := utf8ByteSize_eq_length_of_good (c :: rest) hgood
                have hcons := String.utf8Len_cons c rest
                omega
              · intro x hx
                simp at hx
                subst hx
                exact halpha
          · rw [hf] at h
            simp at h
        · simp [halpha] at h
    · rintro ⟨-, h2, h3, h4, h5⟩
      simp only [toList_mk] at h2 h3 h4 h5
      have heq := utf8ByteSize_eq_length_of_good (c :: rest) h4
      have halpha := h3 c rfl
      have hfind : (c :: rest).find? (fun c => !c.isAlphanum && c != '_' && c != '-') = none := by
        rw [List.find?_eq_none]
        intro x hx
        simp only [Bool.not_eq_true]
        exact (bad_char_iff x).2 (h4 x hx)
      simp only [validate_secret_name, hne, Bool.false_eq_true, if_false,
        String.utf8ByteSize_mk, toList_mk]
      rw [if_neg (by omega)]
      simp [halpha, hfind, h5]

/-- Submitting a nonempty name that fails validation aborts before the client
is touched: the input session ends, the status carries the validation error,
and the view returns to the prior view. -/
lemma submit_input_validation_abort (a : App) (env : Env) (e : String)
    (hne : a.input_buffer ≠ "")
    (hval : validate_secret_name a.input_buffer = Except.error e) :
    a.submit_input InputMode.NewSecretName env =
      some ((({ a with input_buffer := "", cursor_position := 0 } : App).set_status e true).go_back) := by
  have hb : a.input_buffer.isEmpty = false := by
    rw [Bool.eq_false_iff]
    intro h
    exact hne ((String.isEmpty_iff _).1 h)
  simp [App.submit_input, hb, hval]

/-- Submitting an empty buffer is rejected locally with its own message. -/
lemma submit_input_empty (a : App) (env : Env) (mode : InputMode)
    (h : a.input_buffer = "") :
    a.submit_input mode env =
      some ((({ a with input_buffer := "", cursor_position := 0 } : App).set_status
        "Input cannot be empty" true).go_back) := by
  have hb : a.input_buffer.isEmpty = true := by rw [h]; rfl
  simp [App.submit_input, hb]

/-! ### Claim C7 -/

set_option maxRecDepth 10000

/-- C7: `validate_secret_name` returns `Ok` exactly when the name is
non-empty, at most 255 characters, starts with an ASCII letter, contains only
ASCII letters, digits, underscores and hyphens, and does not end with a
hyphen; it accepts "API_KEY", "my-secret", "a" and a 255-character name and
rejects "", "123secret", "-secret", "secret-", "my secret" and a
256-character name; and on any violation, submitting the name aborts before
any network call, returns to the prior view, and sets an error status
carrying the violated rule. -/
theorem C7_validate_secret_name :
    (∀ (a : App) (env : Env) (e : String),
      a.input_buffer ≠ "" →
      validate_secret_name a.input_buffer = Except.error e →
      a.submit_input InputMode.NewSecretName env =
        some ((({ a with input_buffer := "", cursor_position := 0 } : App).set_status e true).go_back)) ∧
    (∀ (a : App) (env : Env) (mode : InputMode),
      a.input_buffer = "" →
      a.submit_input mode env =
        some ((({ a with input_buffer := "", cursor_position := 0 } : App).set_status
          "Input cannot be empty" true).go_back)) ∧
    (∀ name : String, validate_secret_name name = Except.ok () ↔ valid_name_spec name) ∧
    validate_secret_name "API_KEY" = Except.ok () ∧
    validate_secret_name "my-secret" = Except.ok () ∧
    validate_secret_name "a" = Except.ok () ∧
    validate_secret_name (String.mk ('a' :: List.replicate 254 'b')) = Except.ok () ∧
    validate_secret_name "" = Except.error "Secret name cannot be empty" ∧
    validate_secret_name "123secret" = Except.error "Secret name must start with a letter" ∧
    validate_secret_name "-secret" = Except.error "Secret name must start with a letter" ∧
    validate_secret_name "secret-" = Except.error "Secret name cannot end with a hyphen" ∧
    validate_secret_name "my secret" =
      Except.error
        "Secret name can only contain letters, digits, underscores, and hyphens. Found: \x27 \x27" ∧
    validate_secret_name (String.mk ('a' :: List.replicate 255 'b')) =
      Except.error "Secret name must be 255 characters or less" := by
  refine ⟨submit_input_validation_abort, submit_input_empty, validate_ok_iff,
    ?_, ?_, ?_, ?_, ?_, ?_, ?_, ?_, ?_, ?_⟩ <;> decide

/-- Concrete application state used to witness C7. -/
def c7_app : App :=
  { App.new (some "p") with
    input_buffer := "123secret"
    current_view := View.Input InputMode.NewSecretName
    previous_view := some View.SecretsList }

/-- Witness for C7 at a concrete rejected submission. -/
theorem C7_validate_secret_name_witness :
    c7_app.input_buffer ≠ "" ∧
    validate_secret_name c7_app.input_buffer =
      Except.error "Secret name must start with a letter" ∧
    c7_app.submit_input InputMode.NewSecretName ok_env =
      some ((({ c7_app with input_buffer := "", cursor_position := 0 } : App).set_status
        "Secret name must start with a letter" true).go_back) :=
  ⟨by decide, by decide,
    C7_validate_secret_name.1 c7_app ok_env "Secret name must start with a letter"
      (by decide) (by decide)⟩

/-! ### Claim C9 -/

/-- C9: for each selectable list (secrets, versions, projects), the four
navigation operations are no-ops on an empty list (the selection stays none
and nothing panics), and on a non-empty list `next` wraps from the last index
to 0, `previous` wraps from 0 to the last index, and otherwise they move the
selection by exactly one. -/
theorem C9_list_navigation :
    (∀ a : App, a.secrets = [] →
      a.select_next_secret = a ∧ a.select_previous_secret = a ∧
      a.select_first_secret = a ∧ a.select_last_secret = a) ∧
    (∀ a : App, a.versions = [] →
      a.select_next_version = a ∧ a.select_previous_version = a ∧
      a.select_first_version = a ∧ a.select_last_version = a) ∧
    (∀ a : App, a.available_projects = [] →
      a.select_next_project = a ∧ a.select_previous_project = a ∧
      a.select_first_project = a ∧ a.select_last_project = a) ∧
    (∀ (a : App) (i : Nat), a.secrets_state = some i → i < a.secrets.length →
      a.select_next_secret.secrets_state =
        some (if i = a.secrets.length - 1 then 0 else i + 1) ∧
      a.select_previous_secret.secrets_state =
        some (if i = 0 then a.secrets.length - 1 else i - 1)) ∧
    (∀ (a : App) (i : Nat), a.versions_state = some i → i < a.versions.length →
      a.select_next_version.versions_state =
        some (if i = a.versions.length - 1 then 0 else i + 1) ∧
      a.select_previous_version.versions_state =
        some (if i = 0 then a.versions.length - 1 else i - 1)) ∧
    (∀ (a : App) (i : Nat), a.projects_state = some i →
      i < a.available_projects.length →
      a.select_next_project.projects_state =
        some (if i = a.available_projects.length - 1 then 0 else i + 1) ∧
      a.select_previous_project.projects_state =
        some (if i = 0 then a.available_projects.length - 1 else i - 1)) := by
  refine ⟨?_, ?_, ?_, ?_, ?_, ?_⟩
  · intro a h
    refine ⟨?_, ?_, ?_, ?_⟩ <;>
      simp [App.select_next_secret, App.select_previous_secret,
        App.select_first_secret, App.select_last_secret, h]
  · intro a h
    refine ⟨?_, ?_, ?_, ?_⟩ <;>
      simp [App.select_next_version, App.select_previous_version,
        App.select_first_version, App.select_last_version, h]
  · intro a h
    refine ⟨?_, ?_, ?_, ?_⟩ <;>
      simp [App.select_next_project, App.select_previous_project,
        App.select_first_project, App.select_last_project, h]
  · intro a i hsel hlt
    constructor
    · simp only [App.select_next_secret, hsel, Option.getD_some]
      rw [if_neg (show ¬ a.secrets.length = 0 by omega)]
      rcases Nat.lt_or_ge i (a.secrets.length - 1) with h2 | h2
      · rw [if_neg (show ¬ i ≥ a.secrets.length - 1 by omega),
          if_neg (show ¬ i = a.secrets.length - 1 by omega)]
      · rw [if_pos h2, if_pos (show i = a.secrets.length - 1 by omega)]
    · simp only [App.select_previous_secret, hsel, Option.getD_some]
      rw [if_neg (show ¬ a.secrets.length = 0 by omega)]
  · intro a i hsel hlt
    constructor
    · simp only [App.select_next_version, hsel, Option.getD_some]
      rw [if_neg (show ¬ a.versions.length = 0 by omega)]
      rcases Nat.lt_or_ge i (a.versions.length - 1) with h2 | h2
      · rw [if_neg (show ¬ i ≥ a.versions.length - 1 by omega),
          if_neg (show ¬ i = a.versions.length - 1 by omega)]
      · rw [if_pos h2, if_pos (show i = a.versions.length - 1 by omega)]
    · simp only [App.select_previous_version, hsel, Option.getD_some]
      rw [if_neg (show ¬ a.versions.length = 0 by omega)]
  · intro a i hsel hlt
    constructor
    · simp only [App.select_next_project, hsel, Option.getD_some]
      rw [if_neg (show ¬ a.available_projects.length = 0 by omega)]
      rcases Nat.lt_or_ge i (a.available_projects.length - 1) with h2 | h2
      · rw [if_neg (show ¬ i ≥ a.available_projects.length - 1 by omega),
          if_neg (show ¬ i = a.available_projects.length - 1 by omega)]
      · rw [if_pos h2, if_pos (show i = a.available_projects.length - 1 by omega)]
    · simp only [App.select_previous_project, hsel, Option.getD_some]
      rw [if_neg (show ¬ a.available_projects.length = 0 by omega)]

/-- Concrete application state used to witness C9: three secrets, last one
selected. -/
def c9_app : App :=
  { App.new (some "p") with
    secrets := [mock_secret "a", mock_secret "b", mock_secret "c"]
    secrets_state := some 2 }

/-- Witness for C9: on a three-element list, `next` at index 2 wraps to 0. -/
theorem C9_list_navigation_witness :
    c9_app.secrets_state = some 2 ∧ 2 < c9_app.secrets.length ∧
    c9_app.select_next_secret.secrets_state = some 0 :=
  ⟨by decide, by decide, by
    have h := (C9_list_navigation.2.2.2.1 c9_app 2 (by decide) (by decide)).1
    simpa using h⟩

/-! ### Claim C10 -/

/-- Inserting a character always grows the list by exactly one. -/
lemma insert_char_at_length : ∀ (n : Nat) (c : Char) (l : List Char),
    (App.insert_char_at n c l).length = l.length + 1
  | 0, _, l => by simp [App.insert_char_at]
  | _ + 1, _, [] => by simp [App.insert_char_at]
  | n + 1, c, x :: xs => by
    simp [App.insert_char_at, insert_char_at_length n c xs]

/-- C10: in every state with the cursor inside the buffer, `input_char`
increments both the character count and the cursor, `input_backspace` never
panics, is a no-op at cursor 0 and otherwise keeps the cursor in bounds,
`cursor_left` is a no-op at 0, `cursor_right` is a no-op at the end, and all
four operations preserve `cursor_position ≤ length`. -/
theorem C10_editor_cursor_invariant :
    ∀ a : App, a.cursor_position ≤ a.input_buffer.length →
      (∀ c : Char,
        (a.input_char c).input_buffer.length = a.input_buffer.length + 1 ∧
        (a.input_char c).cursor_position = a.cursor_position + 1 ∧
        (a.input_char c).cursor_position ≤ (a.input_char c).input_buffer.length) ∧
      (∃ b : App, a.input_backspace = some b ∧
        b.cursor_position ≤ b.input_buffer.length ∧
        (a.cursor_position = 0 → b = a)) ∧
      (a.cursor_left.cursor_position ≤ a.cursor_left.input_buffer.length ∧
        (a.cursor_position = 0 → a.cursor_left = a)) ∧
      (a.cursor_right.cursor_position ≤ a.cursor_right.input_buffer.length ∧
        (a.cursor_position = a.input_buffer.length → a.cursor_right = a)) := by
  intro a ha
  have hdata : a.input_buffer.toList.length = a.input_buffer.length := rfl
  refine ⟨?_, ?_, ?_, ?_⟩
  · intro c
    refine ⟨?_, rfl, ?_⟩
    · show (String.mk (App.insert_char_at a.cursor_position c a.input_buffer.toList)).length
        = a.input_buffer.length + 1
      rw [String.length_mk, insert_char_at_length, hdata]
    · show a.cursor_position + 1 ≤
        (String.mk (App.insert_char_at a.cursor_position c a.input_buffer.toList)).length
      rw [String.length_mk, insert_char_at_length, hdata]
      omega
  · by_cases h0 : a.cursor_position = 0
    · refine ⟨a, ?_, ha, fun _ => rfl⟩
      simp [App.input_backspace, h0]
    · have hpos : a.cursor_position > 0 := Nat.pos_of_ne_zero h0
      have hlt : a.cursor_position - 1 < a.input_buffer.toList.length := by omega
      have hne : a.input_buffer.toList.isEmpty = false := by
        rw [Bool.eq_false_iff]
        intro h
        rw [List.isEmpty_iff] at h
        rw [h] at hlt
        simp at hlt
      refine ⟨{ a with
          input_buffer := String.mk (a.input_buffer.toList.eraseIdx (a.cursor_position - 1)),
          cursor_position := a.cursor_position - 1 }, ?_, ?_, fun h => absurd h h0⟩
      · simp only [App.input_backspace, if_pos hpos, if_pos hlt, hne,
          Bool.false_eq_true, if_false]
      · show a.cursor_position - 1 ≤
          (String.mk (a.input_buffer.toList.eraseIdx (a.cursor_position - 1))).length
        rw [String.length_mk, List.length_eraseIdx, if_pos hlt]
        omega
  · constructor
    · by_cases h0 : a.cursor_position = 0
      · simp [App.cursor_left, h0, ha]
      · simp [App.cursor_left, Nat.pos_of_ne_zero h0]
        omega
    · intro h0
      simp [App.cursor_left, h0]
  · constructor
    · by_cases hend : a.cursor_position < a.input_buffer.length
      · simp [App.cursor_right, hend]
        omega
      · simp [App.cursor_right, hend]
        omega
    · intro hend
      simp [App.cursor_right, hend]

/-- Concrete editor state used to witness C10: buffer "hllo", cursor 1. -/
def c10_app : App :=
  { App.new (some "p") with input_buffer := "hllo", cursor_position := 1 }

/-- Witness for C10: inserting a character at cursor 1 of "hllo" grows the
buffer to 5 characters and moves the cursor to 2 (the result is "hello"). -/
theorem C10_editor_cursor_invariant_witness :
    c10_app.cursor_position ≤ c10_app.input_buffer.length ∧
    (c10_app.input_char 'e').input_buffer.length = c10_app.input_buffer.length + 1 ∧
    (c10_app.input_char 'e').cursor_position = 2 ∧
    (c10_app.input_char 'e').input_buffer = "hello" :=
  ⟨by decide,
    ((C10_editor_cursor_invariant c10_app (by decide)).1 'e').1,
    by decide, by decide⟩

/-! ### Claim C8 -/

/-- Folding the trailing `is_loading := false` reset over an optional state. -/
lemma opt_match_loading (o : Option App) :
    (match o with
      | none => none
      | some b => some { b with is_loading := false }) =
      o.map (fun b => { b with is_loading := false }) := by
  cases o <;> rfl

/-- C8: for the currently selected version, reveal (toggle) and copy are
rejected without a network call on a `Destroyed` version ("permanently gone")
and on a `Disabled` version ("enable it first", a distinct message), and
proceed on `Enabled` or `Unknown`; enable is rejected unless the state is
`Disabled`; disable is rejected unless the state is `Enabled`. -/
theorem C8_version_guard :
    ∀ (a : App) (env : Env) (i : Nat) (v : VersionInfo) (s : SecretInfo),
      a.current_secret = some s → a.versions_state = some i → a.versions[i]? = some v →
      ((a.revealed_value = none → v.state = VersionState.Destroyed →
        a.toggle_secret_value env =
          some (a.set_status "Cannot access destroyed version - data is permanently gone" true)) ∧
      (a.revealed_value = none → v.state = VersionState.Disabled →
        a.toggle_secret_value env =
          some (a.set_status "Version is disabled - press \x27e\x27 to enable it first" true)) ∧
      (∀ (cl value : String), a.revealed_value = none →
        (v.state = VersionState.Enabled ∨ v.state = VersionState.Unknown) →
        a.client = some cl → env.access_version = Except.ok value →
        a.toggle_secret_value env =
          some { a with
                 revealed_value := some value
                 status := some { text := "Press \x27s\x27 to hide value", is_error := false }
                 is_loading := false }) ∧
      (v.state = VersionState.Destroyed →
        a.copy_secret_value env =
          some (a.set_status "Cannot copy destroyed version - data is permanently gone" true)) ∧
      (v.state = VersionState.Disabled →
        a.copy_secret_value env =
          some (a.set_status "Version is disabled - press \x27e\x27 to enable it first" true)) ∧
      (∀ (cl value : String),
        (v.state = VersionState.Enabled ∨ v.state = VersionState.Unknown) →
        a.client = some cl → env.access_version = Except.ok value →
        env.clipboard_new = Except.ok () → env.clipboard_set_ok = true →
        a.copy_secret_value env =
          some { a with
                 status := some { text := "Copied to clipboard!", is_error := false }
                 is_loading := false }) ∧
      (v.state ≠ VersionState.Disabled →
        a.enable_selected_version env =
          some (a.set_status "Can only enable disabled versions" true)) ∧
      (v.state = VersionState.Disabled →
        ∀ (cl : String) (w : VersionInfo) (vnum : String), a.client = some cl →
        env.enable_version = Except.ok w → v.version = vnum →
        a.enable_selected_version env =
          ((({ a with is_loading := true } : App).set_status
              s!"Enabled version: {vnum}" false).load_versions env).map
            (fun b => { b with is_loading := false })) ∧
      (v.state ≠ VersionState.Enabled →
        a.disable_selected_version env =
          some (a.set_status "Can only disable enabled versions" true)) ∧
      (v.state = VersionState.Enabled →
        ∀ (cl : String) (w : VersionInfo) (vnum : String), a.client = some cl →
        env.disable_version = Except.ok w → v.version = vnum →
        a.disable_selected_version env =
          ((({ a with is_loading := true } : App).set_status
              s!"Disabled version: {vnum}" false).load_versions env).map
            (fun b => { b with is_loading := false }))) := by
  intro a env i v s hs hsel hv
  refine ⟨?_, ?_, ?_, ?_, ?_, ?_, ?_, ?_, ?_, ?_⟩
  · intro hrev hst
    simp [App.toggle_secret_value, hrev, hs, hsel, hv, hst]
  · intro hrev hst
    simp [App.toggle_secret_value, hrev, hs, hsel, hv, hst]
  · rintro cl value hrev (hst | hst) hcl hok <;>
      simp [App.toggle_secret_value, App.set_status, hrev, hs, hsel, hv, hst, hcl, hok]
  · intro hst
    simp [App.copy_secret_value, hs, hsel, hv, hst]
  · intro hst
    simp [App.copy_secret_value, hs, hsel, hv, hst]
  · rintro cl value (hst | hst) hcl hok hclip hset <;>
      simp [App.copy_secret_value, App.set_status, hs, hsel, hv, hst, hcl, hok, hclip, hset]
  · intro hst
    simp [App.enable_selected_version, hs, hsel, hv, hst]
  · intro hst cl w vnum hcl hw hvn
    simp [App.enable_selected_version, hs, hsel, hv, hst, hcl, hw, opt_match_loading, hvn]
  · intro hst
    simp [App.disable_selected_version, hs, hsel, hv, hst]
  · intro hst cl w vnum hcl hw hvn
    simp [App.disable_selected_version, hs, hsel, hv, hst, hcl, hw, opt_match_loading, hvn]

/-- Concrete detail-view state used to witness C8: the selected version is
destroyed. -/
def c8_app : App :=
  { App.new (some "p") with
    current_view := View.SecretDetail
    current_secret := some (mock_secret "alpha")
    versions := [mock_version "1" VersionState.Destroyed]
    versions_state := some 0 }

/-- Witness for C8: toggling reveal on a destroyed version is rejected with
the "permanently gone" message. -/
theorem C8_version_guard_witness :
    c8_app.current_secret = some (mock_secret "alpha") ∧
    c8_app.versions_state = some 0 ∧
    c8_app.versions[0]? = some (mock_version "1" VersionState.Destroyed) ∧
    c8_app.toggle_secret_value ok_env =
      some (c8_app.set_status
        "Cannot access destroyed version - data is permanently gone" true) :=
  ⟨by decide, by decide, by decide,
    (C8_version_guard c8_app ok_env 0 (mock_version "1" VersionState.Destroyed)
      (mock_secret "alpha") (by decide) (by decide) (by decide)).1 rfl rfl⟩

/-! ### Claim C5 -/

/-- Project-selector state with a revealed value, reachable by opening the
selector from the detail view while a value was revealed. -/
def c5_app : App :=
  { App.new (some "p1") with
    current_view := View.ProjectSelector
    previous_view := some View.SecretDetail
    client := some "p1"
    current_secret := some (mock_secret "alpha")
    versions := [mock_version "1" VersionState.Enabled]
    versions_state := some 0
    revealed_value := some "value"
    available_projects := [{ project_id := "p1", display_name := "P1" }]
    projects_state := some 0 }

/-- Counterexample to C5 as stated: confirming the *same* project does not
leave `revealed_value` at its previous value — the return navigation
(`go_back`) clears it. -/
theorem C5_same_project_counterexample :
    c5_app.revealed_value = some "value" ∧
    c5_app.available_projects[0]? = some { project_id := "p1", display_name := "P1" } ∧
    c5_app.project_id = "p1" ∧
    (c5_app.select_project ok_env).revealed_value = none := by
  refine ⟨rfl, rfl, rfl, ?_⟩
  decide

/-- C5 (amended): confirming the project that is already active changes none
of `project_id`, the client handle, `secrets`, `versions`, `current_secret`
or the selection states, returns `current_view` to the prior view (default
`SecretsList`), sets the informational status "Already on this project"
(`is_error = false`) — but `revealed_value` is cleared by the back
navigation rather than kept. -/
theorem C5_same_project_noop :
    ∀ (a : App) (env : Env) (i : Nat) (p : ProjectInfo),
      a.projects_state = some i → a.available_projects[i]? = some p →
      p.project_id = a.project_id →
      (a.select_project env).project_id = a.project_id ∧
      (a.select_project env).client = a.client ∧
      (a.select_project env).secrets = a.secrets ∧
      (a.select_project env).secrets_state = a.secrets_state ∧
      (a.select_project env).versions = a.versions ∧
      (a.select_project env).versions_state = a.versions_state ∧
      (a.select_project env).current_secret = a.current_secret ∧
      (a.select_project env).available_projects = a.available_projects ∧
      (a.select_project env).revealed_value = none ∧
      (a.select_project env).status =
        some { text := "Already on this project", is_error := false } ∧
      (a.select_project env).current_view = (a.previous_view.getD View.SecretsList) ∧
      (a.select_project env).previous_view = none := by
  intro a env i p hsel hp hpid
  have h : a.select_project env = (a.set_status "Already on this project" false).go_back := by
    simp [App.select_project, hsel, hp, hpid]
  rw [h]
  cases hpv : a.previous_view <;>
    simp [App.go_back, App.set_status, hpv]

/-- Witness for C5 (amended) at a same-project confirmation without a revealed
value. -/
def c5_app2 : App :=
  { App.new (some "p1") with
    current_view := View.ProjectSelector
    previous_view := some View.SecretsList
    available_projects := [{ project_id := "p1", display_name := "P1" }]
    projects_state := some 0 }

/-- Witness for the amended C5: the same-project confirmation keeps the cache
and returns to the recorded prior view with an informational status. -/
theorem C5_same_project_noop_witness :
    c5_app2.projects_state = some 0 ∧
    (c5_app2.select_project ok_env).current_view = View.SecretsList ∧
    (c5_app2.select_project ok_env).status =
      some { text := "Already on this project", is_error := false } :=
  ⟨rfl,
    by
      have h := (C5_same_project_noop c5_app2 ok_env 0
        { project_id := "p1", display_name := "P1" } rfl rfl rfl).2.2.2.2.2.2.2.2.2.2.1
      simpa using h,
    (C5_same_project_noop c5_app2 ok_env 0
      { project_id := "p1", display_name := "P1" } rfl rfl rfl).2.2.2.2.2.2.2.2.2.1⟩

/-! ### Claim C6 -/

/-- C6: confirming a different project clears the cached secrets, versions,
current secret and revealed value, resets both selection states, discards the
client handle, switches to `SecretsList` with no recorded previous view, and
triggers a fresh secrets load on exactly that cleared state. -/
theorem C6_switch_project :
    ∀ (a : App) (env : Env) (i : Nat) (p : ProjectInfo) (pid : String),
      a.projects_state = some i → a.available_projects[i]? = some p →
      p.project_id = pid → pid ≠ a.project_id →
      a.select_project env =
        ({ a with
           project_id := pid
           client := none
           secrets := []
           secrets_state := none
           current_secret := none
           versions := []
           versions_state := none
           revealed_value := none
           status := some { text := s!"Switched to project: {pid}", is_error := false }
           current_view := View.SecretsList
           previous_view := none } : App).load_secrets env := by
  intro a env i p pid hsel hp hpid hne
  subst hpid
  simp [App.select_project, hsel, hp, hne, App.set_status]

/-- Project-selector state used to witness C6. -/
def c6_app : App :=
  { App.new (some "p1") with
    current_view := View.ProjectSelector
    previous_view := some View.SecretsList
    client := some "p1"
    secrets := [mock_secret "alpha"]
    secrets_state := some 0
    current_secret := some (mock_secret "alpha")
    versions := [mock_version "1" VersionState.Enabled]
    versions_state := some 0
    revealed_value := some "value"
    available_projects := [{ project_id := "p2", display_name := "P2" }]
    projects_state := some 0 }

/-- Witness for C6: switching from project p1 to p2 clears the cache and runs
the fresh load on the cleared state. -/
theorem C6_switch_project_witness :
    c6_app.projects_state = some 0 ∧
    "p2" ≠ c6_app.project_id ∧
    c6_app.select_project ok_env =
      ({ c6_app with
         project_id := "p2"
         client := none
         secrets := []
         secrets_state := none
         current_secret := none
         versions := []
         versions_state := none
         revealed_value := none
         status := some { text := "Switched to project: p2", is_error := false }
         current_view := View.SecretsList
         previous_view := none } : App).load_secrets ok_env :=
  ⟨by decide, by decide, by
    have h := C6_switch_project c6_app ok_env 0
      { project_id := "p2", display_name := "P2" } "p2" rfl rfl rfl (by decide)
    simpa using h⟩

/-! ### Frame lemmas for the load operations -/

/-- `load_versions` only touches `versions`, `versions_state`, `status` and
`is_loading`: view, navigation record, current secret and the revealed value
are all preserved (in particular it does not clear `revealed_value`). -/
lemma load_versions_frame (a : App) (env : Env) (b : App)
    (h : a.load_versions env = some b) :
    b.current_view = a.current_view ∧ b.previous_view = a.previous_view ∧
    b.current_secret = a.current_secret ∧ b.revealed_value = a.revealed_value ∧
    b.client = a.client ∧ b.secrets = a.secrets := by
  cases hcs : a.current_secret with
  | none =>
    simp [App.load_versions, hcs] at h
    subst h
    simp [hcs]
  | some s =>
    cases hcl : a.client with
    | none => simp [App.load_versions, App.set_status, hcs, hcl] at h
    | some cl =>
      cases henv : env.list_versions with
      | error e =>
        simp [App.load_versions, hcs, hcl, henv, App.set_status] at h
        subst h
        simp [hcs, hcl]
      | ok vs =>
        by_cases hemp : vs.isEmpty = true <;>
          · simp [App.load_versions, hcs, hcl, henv, hemp, App.set_status] at h
            subst h
            simp [hcs, hcl]

/-- `load_secrets` preserves the current secret, the navigation record and
the revealed value; the view either stays or escalates to `AuthRequired`. -/
lemma load_secrets_shape (a : App) (env : Env) :
    (a.load_secrets env).current_secret = a.current_secret ∧
    (a.load_secrets env).previous_view = a.previous_view ∧
    (a.load_secrets env).revealed_value = a.revealed_value ∧
    ((a.load_secrets env).current_view = a.current_view ∨
      (a.load_secrets env).current_view = View.AuthRequired) := by
  cases hcl : a.client with
  | none =>
    cases hnc : env.new_client with
    | error e => simp [App.load_secrets, hcl, hnc, App.set_status]
    | ok u =>
      cases hls : env.list_secrets with
      | error e =>
        simp [App.load_secrets, App.load_secrets_fetch, hcl, hnc, hls, App.set_status]
      | ok secrets =>
        by_cases hemp : secrets.isEmpty = true <;>
          simp [App.load_secrets, App.load_secrets_fetch, hcl, hnc, hls, hemp, App.set_status]
  | some cl =>
    cases hls : env.list_secrets with
    | error e =>
      simp [App.load_secrets, App.load_secrets_fetch, hcl, hls, App.set_status]
    | ok secrets =>
      by_cases hemp : secrets.isEmpty = true <;>
        simp [App.load_secrets, App.load_secrets_fetch, hcl, hls, hemp, App.set_status]

/-- `load_projects` preserves the current secret, the navigation record and
the revealed value; the view either stays or escalates to `AuthRequired`. -/
lemma load_projects_shape (a : App) (env : Env) :
    (a.load_projects env).current_secret = a.current_secret ∧
    (a.load_projects env).previous_view = a.previous_view ∧
    (a.load_projects env).revealed_value = a.revealed_value ∧
    ((a.load_projects env).current_view = a.current_view ∨
      (a.load_projects env).current_view = View.AuthRequired) := by
  cases hlp : env.list_projects with
  | error e => simp [App.load_projects, hlp, App.set_status]
  | ok projects =>
    by_cases hemp : projects.isEmpty = true <;>
      simp [App.load_projects, hlp, hemp, App.set_status]

/-! ### Claim C4 -/

/-- Detail-view state with a revealed value, used for the C4 counterexample. -/
def c4_app : App :=
  { App.new (some "p") with
    current_view := View.SecretDetail
    previous_view := some View.SecretsList
    client := some "p"
    current_secret := some (mock_secret "alpha")
    versions := [mock_version "1" VersionState.Enabled]
    versions_state := some 0
    revealed_value := some "value" }

/-- Counterexample to C4 as stated: a re-fetch of version data (the `Refresh`
action in the detail view, which runs `load_versions`) does not clear
`revealed_value` — after a successful reload the value is still revealed. -/
theorem C4_refetch_counterexample :
    c4_app.revealed_value = some "value" ∧
    (c4_app.handle_event Action.Refresh ok_env).map (fun x => x.1.revealed_value) =
      some (some "value") := by
  refine ⟨rfl, ?_⟩
  decide

/-- C4 (amended): `revealed_value` is cleared by every version-selection
change on a non-empty versions list and by `go_back`, and
`enter_secret_detail` clears it before fetching; but `load_versions` itself
preserves `revealed_value`, so a bare re-fetch does not clear it. -/
theorem C4_revealed_value_cleared :
    (∀ a : App, a.versions ≠ [] →
      a.select_next_version.revealed_value = none ∧
      a.select_previous_version.revealed_value = none ∧
      a.select_first_version.revealed_value = none ∧
      a.select_last_version.revealed_value = none) ∧
    (∀ a : App, a.go_back.revealed_value = none) ∧
    (∀ (a : App) (env : Env) (i : Nat) (s : SecretInfo) (b : App),
      a.secrets_state = some i → a.secrets[i]? = some s →
      a.enter_secret_detail env = some b → b.revealed_value = none) ∧
    (∀ (a : App) (env : Env) (b : App),
      a.load_versions env = some b → b.revealed_value = a.revealed_value) := by
  refine ⟨?_, ?_, ?_, fun a env b h => (load_versions_frame a env b h).2.2.2.1⟩
  · intro a h
    have hlen : a.versions.length ≠ 0 := by
      intro h0
      exact h (List.length_eq_zero.1 h0)
    refine ⟨?_, ?_, ?_, ?_⟩
    · simp [App.select_next_version, hlen]
    · simp [App.select_previous_version, hlen]
    · simp [App.select_first_version, h]
    · simp [App.select_last_version, hlen, Nat.pos_of_ne_zero hlen]
  · intro a
    cases hpv : a.previous_view <;> simp [App.go_back, hpv]
  · intro a env i s b hsel hs h
    simp only [App.enter_secret_detail, hsel, hs] at h
    have := (load_versions_frame _ env b h).2.2.2.1
    simpa using this

/-- Witness for the amended C4: moving the selection down on a two-version
list clears the revealed value. -/
def c4_app2 : App :=
  { c4_app with
    versions := [mock_version "1" VersionState.Enabled,
                 mock_version "2" VersionState.Enabled] }

/-- Witness for C4 (amended): selection change hides the revealed value. -/
theorem C4_revealed_value_cleared_witness :
    c4_app2.versions ≠ [] ∧
    c4_app2.revealed_value = some "value" ∧
    c4_app2.select_next_version.revealed_value = none :=
  ⟨by decide, rfl, (C4_revealed_value_cleared.1 c4_app2 (by decide)).1⟩

/-! ### Claim C1: navigation/current-secret invariant -/

/-- Boolean test for a `Confirm` view. -/
def is_confirm : View → Bool
  | View.Confirm _ => true
  | _ => false

/-- Boolean test for an `Input` view. -/
def is_input : View → Bool
  | View.Input _ => true
  | _ => false

/-- The invariant exactly as the claim states it: `current_secret` is `Some`
iff `current_view` is `SecretDetail`, `Input(NewVersionValue)`, or a
`Confirm`/`Input` view reached from the detail view (recorded previous view
`SecretDetail`). -/
def secret_iff_claim (a : App) : Prop :=
  a.current_secret.isSome = true ↔
    (a.current_view = View.SecretDetail ∨
     a.current_view = View.Input InputMode.NewVersionValue ∨
     ((is_confirm a.current_view || is_input a.current_view) = true ∧
       a.previous_view = some View.SecretDetail))

/-- The direction of the claim that the code does maintain. -/
def secret_if_spec (a : App) : Prop :=
  (a.current_view = View.SecretDetail ∨
   a.current_view = View.Input InputMode.NewVersionValue ∨
   ((is_confirm a.current_view || is_input a.current_view) = true ∧
     a.previous_view = some View.SecretDetail)) → a.current_secret.isSome = true

/-- The recorded previous view is only ever one of `SecretsList`,
`SecretDetail` or `AuthRequired` (or absent). -/
def prev_ok (a : App) : Prop :=
  a.previous_view = none ∨ a.previous_view = some View.SecretsList ∨
  a.previous_view = some View.SecretDetail ∨ a.previous_view = some View.AuthRequired

/-- Inductive strengthening of the claim invariant. -/
def app_inv (a : App) : Prop :=
  (a.current_view = View.SecretDetail → a.current_secret.isSome = true) ∧
  (a.current_view = View.Input InputMode.NewVersionValue → a.current_secret.isSome = true) ∧
  (a.previous_view = some View.SecretDetail → a.current_secret.isSome = true) ∧
  prev_ok a

/-- The slice of the state the invariant depends on. -/
def nav_state (a : App) : View × Option View × Option SecretInfo :=
  (a.current_view, a.previous_view, a.current_secret)

instance (a : App) : Decidable (secret_iff_claim a) := by
  unfold secret_iff_claim
  infer_instance

instance (a : App) : Decidable (prev_ok a) := by
  unfold prev_ok
  infer_instance

instance (a : App) : Decidable (app_inv a) := by
  unfold app_inv
  infer_instance

lemma app_inv_congr {a b : App} (h : nav_state b = nav_state a) (ha : app_inv a) :
    app_inv b := by
  unfold nav_state at h
  have h1 : b.current_view = a.current_view := congrArg Prod.fst h
  have h2 : b.previous_view = a.previous_view := congrArg (fun p => p.2.1) h
  have h3 : b.current_secret = a.current_secret := congrArg (fun p => p.2.2) h
  unfold app_inv prev_ok at ha ⊢
  rw [h1, h2, h3]
  exact ha

lemma app_inv_shape {a b : App} (hcs : b.current_secret = a.current_secret)
    (hpv : b.previous_view = a.previous_view)
    (hcv : b.current_view = a.current_view ∨ b.current_view = View.AuthRequired)
    (ha : app_inv a) : app_inv b := by
  obtain ⟨h1, h2, h3, h4⟩ := ha
  rcases hcv with hcv | hcv
  · exact app_inv_congr (by unfold nav_state; rw [hcs, hpv, hcv]) ⟨h1, h2, h3, h4⟩
  · refine ⟨?_, ?_, ?_, ?_⟩
    · intro h; rw [hcv] at h; cases h
    · intro h; rw [hcv] at h; cases h
    · intro h; rw [hpv] at h; rw [hcs]; exact h3 h
    · unfold prev_ok at h4 ⊢; rw [hpv]; exact h4

/-! Navigation-slice preservation lemmas for the state-only operations. -/

lemma nav_select_previous_secret (a : App) :
    nav_state a.select_previous_secret = nav_state a := by
  simp only [nav_state, App.select_previous_secret]
  split_ifs <;> rfl

lemma nav_select_next_secret (a : App) :
    nav_state a.select_next_secret = nav_state a := by
  simp only [nav_state, App.select_next_secret]
  split_ifs <;> rfl

lemma nav_select_first_secret (a : App) :
    nav_state a.select_first_secret = nav_state a := by
  simp only [nav_state, App.select_first_secret]
  split_ifs <;> rfl

lemma nav_select_last_secret (a : App) :
    nav_state a.select_last_secret = nav_state a := by
  simp only [nav_state, App.select_last_secret]
  split_ifs <;> rfl

lemma nav_select_previous_version (a : App) :
    nav_state a.select_previous_version = nav_state a := by
  simp only [nav_state, App.select_previous_version]
  split_ifs <;> rfl

lemma nav_select_next_version (a : App) :
    nav_state a.select_next_version = nav_state a := by
  simp only [nav_state, App.select_next_version]
  split_ifs <;> rfl

lemma nav_select_first_version (a : App) :
    nav_state a.select_first_version = nav_state a := by
  simp only [nav_state, App.select_first_version]
  split_ifs <;> rfl

lemma nav_select_last_version (a : App) :
    nav_state a.select_last_version = nav_state a := by
  simp only [nav_state, App.select_last_version]
  split_ifs <;> rfl

lemma nav_select_previous_project (a : App) :
    nav_state a.select_previous_project = nav_state a := by
  simp only [nav_state, App.select_previous_project]
  split_ifs <;> rfl

lemma nav_select_next_project (a : App) :
    nav_state a.select_next_project = nav_state a := by
  simp only [nav_state, App.select_next_project]
  split_ifs <;> rfl

lemma nav_select_first_project (a : App) :
    nav_state a.select_first_project = nav_state a := by
  simp only [nav_state, App.select_first_project]
  split_ifs <;> rfl

lemma nav_select_last_project (a : App) :
    nav_state a.select_last_project = nav_state a := by
  simp only [nav_state, App.select_last_project]
  split_ifs <;> rfl

lemma nav_set_status (a : App) (t : String) (e : Bool) :
    nav_state (a.set_status t e) = nav_state a := rfl

lemma nav_input_char (a : App) (c : Char) :
    nav_state (a.input_char c) = nav_state a := rfl

lemma nav_cursor_left (a : App) : nav_state a.cursor_left = nav_state a := by
  simp only [nav_state, App.cursor_left]
  split_ifs <;> rfl

lemma nav_cursor_right (a : App) : nav_state a.cursor_right = nav_state a := by
  simp only [nav_state, App.cursor_right]
  split_ifs <;> rfl

lemma nav_input_backspace (a b : App) (h : a.input_backspace = some b) :
    nav_state b = nav_state a := by
  by_cases h0 : a.cursor_position > 0
  · by_cases hemp : a.input_buffer.toList.isEmpty = true
    · simp [App.input_backspace, h0, hemp] at h
      exact absurd (List.isEmpty_iff.1 hemp) h.1
    · simp [App.input_backspace, h0, hemp] at h
      obtain ⟨-, h2⟩ := h
      subst h2
      rfl
  · simp [App.input_backspace, h0] at h
    subst h
    rfl

lemma nav_load_versions (a : App) (env : Env) (b : App)
    (h : a.load_versions env = some b) : nav_state b = nav_state a := by
  have hf := load_versions_frame a env b h
  simp [nav_state, hf.1, hf.2.1, hf.2.2.1]

lemma nav_toggle_secret_value (a : App) (env : Env) (b : App)
    (h : a.toggle_secret_value env = some b) : nav_state b = nav_state a := by
  by_cases hrev : a.revealed_value.isSome = true
  · simp [App.toggle_secret_value, hrev] at h
    subst h
    rfl
  · cases hcs : a.current_secret with
    | none =>
      simp [App.toggle_secret_value, hrev, hcs] at h
      subst h
      rfl
    | some s =>
      cases hvs : a.versions_state with
      | none =>
        simp [App.toggle_secret_value, hrev, hcs, hvs] at h
        subst h
        rfl
      | some i =>
        cases hv : a.versions[i]? with
        | none =>
          simp [App.toggle_secret_value, hrev, hcs, hvs, hv] at h
          subst h
          rfl
        | some v =>
          cases hst : v.state with
          | Destroyed =>
            simp [App.toggle_secret_value, App.set_status, hrev, hcs, hvs, hv, hst] at h
            subst h
            simp [nav_state, hcs]
          | Disabled =>
            simp [App.toggle_secret_value, App.set_status, hrev, hcs, hvs, hv, hst] at h
            subst h
            simp [nav_state, hcs]
          | Enabled =>
            cases hcl : a.client with
            | none =>
              simp [App.toggle_secret_value, App.set_status, hrev, hcs, hvs, hv, hst, hcl] at h
            | some cl =>
              cases hacc : env.access_version with
              | error e =>
                simp [App.toggle_secret_value, App.set_status,
                  hrev, hcs, hvs, hv, hst, hcl, hacc] at h
                subst h
                simp [nav_state, hcs, hcl]
              | ok value =>
                simp [App.toggle_secret_value, App.set_status,
                  hrev, hcs, hvs, hv, hst, hcl, hacc] at h
                subst h
                simp [nav_state, hcs, hcl]
          | Unknown =>
            cases hcl : a.client with
            | none =>
              simp [App.toggle_secret_value, App.set_status, hrev, hcs, hvs, hv, hst, hcl] at h
            | some cl =>
              cases hacc : env.access_version with
              | error e =>
                simp [App.toggle_secret_value, App.set_status,
                  hrev, hcs, hvs, hv, hst, hcl, hacc] at h
                subst h
                simp [nav_state, hcs, hcl]
              | ok value =>
                simp [App.toggle_secret_value, App.set_status,
                  hrev, hcs, hvs, hv, hst, hcl, hacc] at h
                subst h
                simp [nav_state, hcs, hcl]

lemma nav_copy_secret_value (a : App) (env : Env) (b : App)
    (h : a.copy_secret_value env = some b) : nav_state b = nav_state a := by
  cases hcs : a.current_secret with
  | none =>
    simp [App.copy_secret_value, hcs] at h
    subst h
    rfl
  | some s =>
    cases hvs : a.versions_state with
    | none =>
      simp [App.copy_secret_value, hcs, hvs] at h
      subst h
      rfl
    | some i =>
      cases hv : a.versions[i]? with
      | none =>
        simp [App.copy_secret_value, hcs, hvs, hv] at h
        subst h
        rfl
      | some v =>
        have hproceed : ∀ st : VersionState, v.state = st →
            st = VersionState.Enabled ∨ st = VersionState.Unknown →
            nav_state b = nav_state a := by
          intro st hst hor
          cases hcl : a.client with
          | none =>
            rcases hor with h1 | h1 <;> subst h1 <;>
              simp [App.copy_secret_value, App.set_status, hcs, hvs, hv, hst, hcl] at h
          | some cl =>
            cases hacc : env.access_version with
            | error e =>
              rcases hor with h1 | h1 <;> subst h1 <;>
                · simp [App.copy_secret_value, App.set_status,
                    hcs, hvs, hv, hst, hcl, hacc] at h
                  subst h
                  simp [nav_state, hcs, hcl]
            | ok value =>
              cases hclip : env.clipboard_new with
              | error u =>
                rcases hor with h1 | h1 <;> subst h1 <;>
                  · simp [App.copy_secret_value, App.set_status,
                      hcs, hvs, hv, hst, hcl, hacc, hclip] at h
                    subst h
                    simp [nav_state, hcs, hcl]
              | ok u =>
                rcases hor with h1 | h1 <;> subst h1 <;>
                  by_cases hset : env.clipboard_set_ok = true <;>
                  · simp [App.copy_secret_value, App.set_status,
                      hcs, hvs, hv, hst, hcl, hacc, hclip, hset] at h
                    subst h
                    simp [nav_state, hcs, hcl]
        cases hst : v.state with
        | Destroyed =>
          simp [App.copy_secret_value, App.set_status, hcs, hvs, hv, hst] at h
          subst h
          simp [nav_state, hcs]
        | Disabled =>
          simp [App.copy_secret_value, App.set_status, hcs, hvs, hv, hst] at h
          subst h
          simp [nav_state, hcs]
        | Enabled => exact hproceed _ hst (Or.inl rfl)
        | Unknown => exact hproceed _ hst (Or.inr rfl)

lemma nav_enable_selected_version (a : App) (env : Env) (b : App)
    (h : a.enable_selected_version env = some b) : nav_state b = nav_state a := by
  cases hcs : a.current_secret with
  | none =>
    simp [App.enable_selected_version, hcs] at h
    subst h
    rfl
  | some s =>
    cases hvs : a.versions_state with
    | none =>
      simp [App.enable_selected_version, hcs, hvs] at h
      subst h
      rfl
    | some i =>
      cases hv : a.versions[i]? with
      | none =>
        simp [App.enable_selected_version, hcs, hvs, hv] at h
        subst h
        rfl
      | some v =>
        by_cases hst : v.state = VersionState.Disabled
        · cases hcl : a.client with
          | none =>
            simp [App.enable_selected_version, App.set_status, hcs, hvs, hv, hst, hcl] at h
          | some cl =>
            cases hev : env.enable_version with
            | error e =>
              simp [App.enable_selected_version, App.set_status,
                hcs, hvs, hv, hst, hcl, hev] at h
              subst h
              simp [nav_state, hcs, hcl]
            | ok w =>
              simp only [App.enable_selected_version, hcs, hvs, hv, hst, hcl, hev,
                ne_eq, not_true_eq_false, if_false, ite_false] at h
              split at h
              · cases h
              · next a2 heq =>
                injection h with h2
                subst h2
                refine ((nav_load_versions _ env a2 heq).trans ?_).trans rfl
                simp [nav_state, App.set_status, hcs, hcl]
        · simp [App.enable_selected_version, App.set_status, hcs, hvs, hv, hst] at h
          subst h
          simp [nav_state, hcs]

lemma nav_disable_selected_version (a : App) (env : Env) (b : App)
    (h : a.disable_selected_version env = some b) : nav_state b = nav_state a := by
  cases hcs : a.current_secret with
  | none =>
    simp [App.disable_selected_version, hcs] at h
    subst h
    rfl
  | some s =>
    cases hvs : a.versions_state with
    | none =>
      simp [App.disable_selected_version, hcs, hvs] at h
      subst h
      rfl
    | some i =>
      cases hv : a.versions[i]? with
      | none =>
        simp [App.disable_selected_version, hcs, hvs, hv] at h
        subst h
        rfl
      | some v =>
        by_cases hst : v.state = VersionState.Enabled
        · cases hcl : a.client with
          | none =>
            simp [App.disable_selected_version, App.set_status, hcs, hvs, hv, hst, hcl] at h
          | some cl =>
            cases hev : env.disable_version with
            | error e =>
              simp [App.disable_selected_version, App.set_status,
                hcs, hvs, hv, hst, hcl, hev] at h
              subst h
              simp [nav_state, hcs, hcl]
            | ok w =>
              simp only [App.disable_selected_version, hcs, hvs, hv, hst, hcl, hev,
                ne_eq, not_true_eq_false, if_false, ite_false] at h
              split at h
              · cases h
              · next a2 heq =>
                injection h with h2
                subst h2
                refine ((nav_load_versions _ env a2 heq).trans ?_).trans rfl
                simp [nav_state, App.set_status, hcs, hcl]
        · simp [App.disable_selected_version, App.set_status, hcs, hvs, hv, hst] at h
          subst h
          simp [nav_state, hcs]

/-! Invariant preservation for the structural operations. -/

lemma inv_go_back (a : App) (h : app_inv a) : app_inv a.go_back := by
  obtain ⟨h1, h2, h3, h4⟩ := h
  unfold App.go_back
  cases hpv : a.previous_view with
  | none =>
    exact ⟨by simp, by simp, by simp [hpv], by unfold prev_ok; simp [hpv]⟩
  | some prev =>
    have hsome : prev = View.SecretDetail → a.current_secret.isSome = true := by
      intro hp
      exact h3 (by rw [hpv, hp])
    refine ⟨?_, ?_, by simp, by unfold prev_ok; simp⟩
    · intro hcv
      simp only at hcv
      simpa using hsome hcv
    · intro hcv
      simp only at hcv
      exfalso
      unfold prev_ok at h4
      rcases h4 with h4 | h4 | h4 | h4 <;> rw [hpv] at h4
      · cases h4
      · injection h4 with h4; subst h4; cases hcv
      · injection h4 with h4; subst h4; cases hcv
      · injection h4 with h4; subst h4; cases hcv

lemma inv_load_secrets (a : App) (env : Env) (h : app_inv a) :
    app_inv (a.load_secrets env) := by
  have hs := load_secrets_shape a env
  exact app_inv_shape hs.1 hs.2.1 hs.2.2.2 h

lemma inv_load_projects (a : App) (env : Env) (h : app_inv a) :
    app_inv (a.load_projects env) := by
  have hs := load_projects_shape a env
  exact app_inv_shape hs.1 hs.2.1 hs.2.2.2 h

lemma inv_open_project_selector (a : App) (env : Env)
    (hcv : a.current_view = View.SecretsList ∨ a.current_view = View.SecretDetail)
    (h : app_inv a) : app_inv (a.open_project_selector env) := by
  obtain ⟨p1, p2, p3, por⟩ := load_projects_shape a env
  obtain ⟨h1, h2, h3, h4⟩ := h
  unfold App.open_project_selector
  refine ⟨by simp, by simp, ?_, ?_⟩
  · intro hp
    simp only [Option.some.injEq] at hp
    rcases por with hcv1 | hcv1
    · rw [hcv1] at hp
      simpa [p1] using h1 hp
    · rw [hcv1] at hp
      cases hp
  · unfold prev_ok
    rcases por with hcv1 | hcv1
    · rcases hcv with hcv2 | hcv2
      · right; left; simp [hcv1, hcv2]
      · right; right; left; simp [hcv1, hcv2]
    · right; right; right; simp [hcv1]

lemma inv_select_project (a : App) (env : Env) (h : app_inv a) :
    app_inv (a.select_project env) := by
  cases hsel : a.projects_state with
  | none => simpa [App.select_project, hsel] using h
  | some idx =>
    cases hp : a.available_projects[idx]? with
    | none => simpa [App.select_project, hsel, hp] using h
    | some p =>
      by_cases hpid : p.project_id = a.project_id
      · have heq : a.select_project env = (a.set_status "Already on this project" false).go_back := by
          simp [App.select_project, hsel, hp, hpid]
        rw [heq]
        exact inv_go_back _ (app_inv_congr rfl h)
      · simp only [App.select_project, hsel, hp, hpid, if_false, ite_false]
        apply inv_load_secrets
        exact ⟨by simp, by simp, by simp, by unfold prev_ok; simp⟩

lemma inv_enter_secret_detail (a : App) (env : Env) (b : App)
    (h : a.enter_secret_detail env = some b) (ha : app_inv a) : app_inv b := by
  cases hsel : a.secrets_state with
  | none =>
    simp [App.enter_secret_detail, hsel] at h
    subst h
    exact ha
  | some idx =>
    cases hs : a.secrets[idx]? with
    | none =>
      simp [App.enter_secret_detail, hsel, hs] at h
      subst h
      exact ha
    | some s =>
      simp only [App.enter_secret_detail, hsel, hs] at h
      have hnav := nav_load_versions _ env b h
      refine app_inv_congr hnav ⟨by simp, by simp, by simp, by unfold prev_ok; simp⟩

lemma inv_start_new_secret (a : App)
    (hcv : a.current_view = View.SecretsList) (_h : app_inv a) :
    app_inv a.start_new_secret := by
  unfold App.start_new_secret
  exact ⟨by simp, by simp, by simp [hcv], by unfold prev_ok; simp [hcv]⟩

lemma inv_start_new_version (a : App)
    (hcv : a.current_view = View.SecretDetail) (h : app_inv a) :
    app_inv a.start_new_version := by
  unfold App.start_new_version
  refine ⟨by simp, ?_, ?_, by unfold prev_ok; simp [hcv]⟩
  · intro _
    simpa using h.1 hcv
  · intro _
    simpa using h.1 hcv

lemma inv_confirm_delete_secret (a : App)
    (hcv : a.current_view = View.SecretsList) (h : app_inv a) :
    app_inv a.confirm_delete_secret := by
  cases hsel : a.secrets_state with
  | none => simpa [App.confirm_delete_secret, hsel] using h
  | some idx =>
    cases hs : a.secrets[idx]? with
    | none => simpa [App.confirm_delete_secret, hsel, hs] using h
    | some s =>
      simp only [App.confirm_delete_secret, hsel, hs]
      exact ⟨by simp, by simp, by simp [hcv], by unfold prev_ok; simp [hcv]⟩

lemma inv_confirm_destroy_version (a : App)
    (hcv : a.current_view = View.SecretDetail) (h : app_inv a) :
    app_inv a.confirm_destroy_version := by
  cases hcs : a.current_secret with
  | none => simpa [App.confirm_destroy_version, hcs] using h
  | some s =>
    cases hvs : a.versions_state with
    | none => simpa [App.confirm_destroy_version, hcs, hvs] using h
    | some i =>
      cases hv : a.versions[i]? with
      | none => simpa [App.confirm_destroy_version, hcs, hvs, hv] using h
      | some v =>
        simp only [App.confirm_destroy_version, hcs, hvs, hv]
        refine ⟨by simp, by simp, ?_, by unfold prev_ok; simp [hcv]⟩
        intro _
        simp [hcs]

lemma inv_submit_input (a : App) (mode : InputMode) (env : Env) (b : App)
    (h : a.submit_input mode env = some b) (ha : app_inv a) : app_inv b := by
  by_cases hemp : a.input_buffer.isEmpty = true
  · simp [App.submit_input, hemp] at h
    subst h
    exact inv_go_back _ (app_inv_congr rfl ha)
  · cases mode with
    | NewSecretName =>
      cases hval : validate_secret_name a.input_buffer with
      | error e =>
        simp [App.submit_input, hemp, hval] at h
        subst h
        exact inv_go_back _ (app_inv_congr rfl ha)
      | ok u =>
        cases hcl : a.client with
        | none => simp [App.submit_input, hemp, hval, hcl] at h
        | some cl =>
          cases hcre : env.create_secret with
          | error e =>
            simp [App.submit_input, App.set_status, hemp, hval, hcl, hcre] at h
            subst h
            exact app_inv_congr rfl (inv_go_back _ (app_inv_congr (by simp [nav_state, App.set_status, hcl]) ha))
          | ok s2 =>
            simp [App.submit_input, App.set_status, hemp, hval, hcl, hcre] at h
            subst h
            refine app_inv_congr rfl
              (inv_load_secrets _ env
                (inv_go_back _ (app_inv_congr (by simp [nav_state, App.set_status, hcl]) ha)))
    | NewVersionValue =>
      cases hcs : a.current_secret with
      | none =>
        simp [App.submit_input, hemp, hcs] at h
        subst h
        exact app_inv_congr (by simp [nav_state, hcs]) ha
      | some s =>
        cases hcl : a.client with
        | none => simp [App.submit_input, hemp, hcs, hcl] at h
        | some cl =>
          cases hadd : env.add_version with
          | error e =>
            simp [App.submit_input, App.set_status, hemp, hcs, hcl, hadd] at h
            subst h
            exact app_inv_congr rfl
              (inv_go_back _ (app_inv_congr (by simp [nav_state, App.set_status, hcs, hcl]) ha))
          | ok w =>
            simp only [App.submit_input, hemp, hcs, hcl, hadd, Bool.false_eq_true,
              if_false, ite_false] at h
            split at h
            · cases h
            · next a2 heq =>
              injection h with h2
              subst h2
              refine app_inv_congr rfl
                (app_inv_congr (nav_load_versions _ env a2 heq)
                  (inv_go_back _ (app_inv_congr (by simp [nav_state, App.set_status, hcs, hcl]) ha)))

lemma inv_execute_confirmed_action (a : App) (c : ConfirmAction) (env : Env) (b : App)
    (h : a.execute_confirmed_action c env = some b) (ha : app_inv a) : app_inv b := by
  cases c with
  | DeleteSecret name =>
    cases hcl : a.client with
    | none => simp [App.execute_confirmed_action, hcl] at h
    | some cl =>
      cases hdel : env.delete_secret with
      | error e =>
        simp [App.execute_confirmed_action, App.set_status, hcl, hdel] at h
        subst h
        exact app_inv_congr rfl (inv_go_back _ (app_inv_congr (by simp [nav_state, App.set_status, hcl]) ha))
      | ok u =>
        simp [App.execute_confirmed_action, App.set_status, hcl, hdel] at h
        subst h
        refine app_inv_congr rfl
          (inv_load_secrets _ env ⟨by simp, by simp, by simp, by unfold prev_ok; simp⟩)
  | DestroyVersion sn ver =>
    cases hcl : a.client with
    | none => simp [App.execute_confirmed_action, hcl] at h
    | some cl =>
      cases hdes : env.destroy_version with
      | error e =>
        simp [App.execute_confirmed_action, App.set_status, hcl, hdes] at h
        subst h
        exact app_inv_congr rfl (inv_go_back _ (app_inv_congr (by simp [nav_state, App.set_status, hcl]) ha))
      | ok w =>
        simp only [App.execute_confirmed_action, hcl, hdes] at h
        split at h
        · cases h
        · next a2 heq =>
          injection h with h2
          subst h2
          refine app_inv_congr rfl
            (app_inv_congr (nav_load_versions _ env a2 heq)
              (inv_go_back _ (app_inv_congr (by simp [nav_state, App.set_status, hcl]) ha)))

/-! Invariant preservation for the per-view handlers and the dispatcher. -/

lemma inv_handle_confirm_action (a : App) (act : Action) (c : ConfirmAction)
    (env : Env) (b : App) (r : Option AppAction) (ha : app_inv a)
    (h : a.handle_confirm_action act c env = some (b, r)) : app_inv b := by
  unfold App.handle_confirm_action at h
  split at h
  · rcases hex : a.execute_confirmed_action c env with _ | x
    · rw [hex] at h
      simp at h
    · rw [hex] at h
      simp only [Option.map_some', Option.some.injEq, Prod.mk.injEq] at h
      obtain ⟨hb, -⟩ := h
      subst hb
      exact inv_execute_confirmed_action _ _ _ _ hex ha
  · simp only [Option.some.injEq, Prod.mk.injEq] at h
    obtain ⟨hb, -⟩ := h
    subst hb
    exact inv_go_back _ ha
  · simp only [Option.some.injEq, Prod.mk.injEq] at h
    obtain ⟨hb, -⟩ := h
    subst hb
    exact inv_go_back _ ha
  · simp only [Option.some.injEq, Prod.mk.injEq] at h
    obtain ⟨hb, -⟩ := h
    subst hb
    exact ha

lemma inv_handle_input_action (a : App) (act : Action) (m : InputMode)
    (env : Env) (b : App) (r : Option AppAction) (ha : app_inv a)
    (h : a.handle_input_action act m env = some (b, r)) : app_inv b := by
  unfold App.handle_input_action at h
  split at h
  · simp only [Option.some.injEq, Prod.mk.injEq] at h
    obtain ⟨hb, -⟩ := h
    subst hb
    exact ha
  · simp only [Option.some.injEq, Prod.mk.injEq] at h
    obtain ⟨hb, -⟩ := h
    subst hb
    exact inv_go_back _ (app_inv_congr rfl ha)
  · rcases hx : a.submit_input m env with _ | x
    · rw [hx] at h
      simp at h
    · rw [hx] at h
      simp only [Option.map_some', Option.some.injEq, Prod.mk.injEq] at h
      obtain ⟨hb, -⟩ := h
      subst hb
      exact inv_submit_input _ _ _ _ hx ha
  · simp only [Option.some.injEq, Prod.mk.injEq] at h
    obtain ⟨hb, -⟩ := h
    subst hb
    exact app_inv_congr (nav_input_char _ _) ha
  · rcases hx : a.input_backspace with _ | x
    · rw [hx] at h
      simp at h
    · rw [hx] at h
      simp only [Option.map_some', Option.some.injEq, Prod.mk.injEq] at h
      obtain ⟨hb, -⟩ := h
      subst hb
      exact app_inv_congr (nav_input_backspace _ _ hx) ha
  · simp only [Option.some.injEq, Prod.mk.injEq] at h
    obtain ⟨hb, -⟩ := h
    subst hb
    exact app_inv_congr (nav_cursor_left _) ha
  · simp only [Option.some.injEq, Prod.mk.injEq] at h
    obtain ⟨hb, -⟩ := h
    subst hb
    exact app_inv_congr (nav_cursor_right _) ha
  · simp only [Option.some.injEq, Prod.mk.injEq] at h
    obtain ⟨hb, -⟩ := h
    subst hb
    exact ha

lemma inv_handle_secrets_list_action (a : App) (act : Action) (env : Env)
    (b : App) (r : Option AppAction) (ha : app_inv a)
    (hcv : a.current_view = View.SecretsList)
    (h : a.handle_secrets_list_action act env = some (b, r)) : app_inv b := by
  unfold App.handle_secrets_list_action at h
  split at h
  · simp only [Option.some.injEq, Prod.mk.injEq] at h
    obtain ⟨hb, -⟩ := h
    subst hb
    exact ha
  · simp only [Option.some.injEq, Prod.mk.injEq] at h
    obtain ⟨hb, -⟩ := h
    subst hb
    exact app_inv_congr (nav_select_previous_secret _) ha
  · simp only [Option.some.injEq, Prod.mk.injEq] at h
    obtain ⟨hb, -⟩ := h
    subst hb
    exact app_inv_congr (nav_select_next_secret _) ha
  · simp only [Option.some.injEq, Prod.mk.injEq] at h
    obtain ⟨hb, -⟩ := h
    subst hb
    exact app_inv_congr (nav_select_first_secret _) ha
  · simp only [Option.some.injEq, Prod.mk.injEq] at h
    obtain ⟨hb, -⟩ := h
    subst hb
    exact app_inv_congr (nav_select_last_secret _) ha
  · rcases hx : a.enter_secret_detail env with _ | x
    · rw [hx] at h
      simp at h
    · rw [hx] at h
      simp only [Option.map_some', Option.some.injEq, Prod.mk.injEq] at h
      obtain ⟨hb, -⟩ := h
      subst hb
      exact inv_enter_secret_detail _ _ _ hx ha
  · simp only [Option.some.injEq, Prod.mk.injEq] at h
    obtain ⟨hb, -⟩ := h
    subst hb
    exact inv_load_secrets _ _ ha
  · simp only [Option.some.injEq, Prod.mk.injEq] at h
    obtain ⟨hb, -⟩ := h
    subst hb
    exact inv_start_new_secret _ hcv ha
  · simp only [Option.some.injEq, Prod.mk.injEq] at h
    obtain ⟨hb, -⟩ := h
    subst hb
    exact inv_confirm_delete_secret _ hcv ha
  · simp only [Option.some.injEq, Prod.mk.injEq] at h
    obtain ⟨hb, -⟩ := h
    subst hb
    exact inv_open_project_selector _ _ (Or.inl hcv) ha
  · simp only [Option.some.injEq, Prod.mk.injEq] at h
    obtain ⟨hb, -⟩ := h
    subst hb
    exact ha

lemma inv_handle_secret_detail_action (a : App) (act : Action) (env : Env)
    (b : App) (r : Option AppAction) (ha : app_inv a)
    (hcv : a.current_view = View.SecretDetail)
    (h : a.handle_secret_detail_action act env = some (b, r)) : app_inv b := by
  unfold App.handle_secret_detail_action at h
  split at h
  · simp only [Option.some.injEq, Prod.mk.injEq] at h
    obtain ⟨hb, -⟩ := h
    subst hb
    exact ha
  · simp only [Option.some.injEq, Prod.mk.injEq] at h
    obtain ⟨hb, -⟩ := h
    subst hb
    exact inv_go_back _ ha
  · simp only [Option.some.injEq, Prod.mk.injEq] at h
    obtain ⟨hb, -⟩ := h
    subst hb
    exact app_inv_congr (nav_select_previous_version _) ha
  · simp only [Option.some.injEq, Prod.mk.injEq] at h
    obtain ⟨hb, -⟩ := h
    subst hb
    exact app_inv_congr (nav_select_next_version _) ha
  · simp only [Option.some.injEq, Prod.mk.injEq] at h
    obtain ⟨hb, -⟩ := h
    subst hb
    exact app_inv_congr (nav_select_first_version _) ha
  · simp only [Option.some.injEq, Prod.mk.injEq] at h
    obtain ⟨hb, -⟩ := h
    subst hb
    exact app_inv_congr (nav_select_last_version _) ha
  · rcases hx : a.load_versions env with _ | x
    · rw [hx] at h
      simp at h
    · rw [hx] at h
      simp only [Option.map_some', Option.some.injEq, Prod.mk.injEq] at h
      obtain ⟨hb, -⟩ := h
      subst hb
      exact app_inv_congr (nav_load_versions _ _ _ hx) ha
  · simp only [Option.some.injEq, Prod.mk.injEq] at h
    obtain ⟨hb, -⟩ := h
    subst hb
    exact inv_start_new_version _ hcv ha
  · rcases hx : a.toggle_secret_value env with _ | x
    · rw [hx] at h
      simp at h
    · rw [hx] at h
      simp only [Option.map_some', Option.some.injEq, Prod.mk.injEq] at h
      obtain ⟨hb, -⟩ := h
      subst hb
      exact app_inv_congr (nav_toggle_secret_value _ _ _ hx) ha
  · rcases hx : a.copy_secret_value env with _ | x
    · rw [hx] at h
      simp at h
    · rw [hx] at h
      simp only [Option.map_some', Option.some.injEq, Prod.mk.injEq] at h
      obtain ⟨hb, -⟩ := h
      subst hb
      exact app_inv_congr (nav_copy_secret_value _ _ _ hx) ha
  · rcases hx : a.enable_selected_version env with _ | x
    · rw [hx] at h
      simp at h
    · rw [hx] at h
      simp only [Option.map_some', Option.some.injEq, Prod.mk.injEq] at h
      obtain ⟨hb, -⟩ := h
      subst hb
      exact app_inv_congr (nav_enable_selected_version _ _ _ hx) ha
  · rcases hx : a.disable_selected_version env with _ | x
    · rw [hx] at h
      simp at h
    · rw [hx] at h
      simp only [Option.map_some', Option.some.injEq, Prod.mk.injEq] at h
      obtain ⟨hb, -⟩ := h
      subst hb
      exact app_inv_congr (nav_disable_selected_version _ _ _ hx) ha
  · simp only [Option.some.injEq, Prod.mk.injEq] at h
    obtain ⟨hb, -⟩ := h
    subst hb
    exact inv_confirm_destroy_version _ hcv ha
  · simp only [Option.some.injEq, Prod.mk.injEq] at h
    obtain ⟨hb, -⟩ := h
    subst hb
    exact inv_open_project_selector _ _ (Or.inr hcv) ha
  · simp only [Option.some.injEq, Prod.mk.injEq] at h
    obtain ⟨hb, -⟩ := h
    subst hb
    exact ha

lemma inv_handle_project_selector_action (a : App) (act : Action) (env : Env)
    (b : App) (r : Option AppAction) (ha : app_inv a)
    (h : a.handle_project_selector_action act env = some (b, r)) : app_inv b := by
  unfold App.handle_project_selector_action at h
  split at h
  · simp only [Option.some.injEq, Prod.mk.injEq] at h
    obtain ⟨hb, -⟩ := h
    subst hb
    exact ha
  · simp only [Option.some.injEq, Prod.mk.injEq] at h
    obtain ⟨hb, -⟩ := h
    subst hb
    exact inv_go_back _ ha
  · simp only [Option.some.injEq, Prod.mk.injEq] at h
    obtain ⟨hb, -⟩ := h
    subst hb
    exact app_inv_congr (nav_select_previous_project _) ha
  · simp only [Option.some.injEq, Prod.mk.injEq] at h
    obtain ⟨hb, -⟩ := h
    subst hb
    exact app_inv_congr (nav_select_next_project _) ha
  · simp only [Option.some.injEq, Prod.mk.injEq] at h
    obtain ⟨hb, -⟩ := h
    subst hb
    exact app_inv_congr (nav_select_first_project _) ha
  · simp only [Option.some.injEq, Prod.mk.injEq] at h
    obtain ⟨hb, -⟩ := h
    subst hb
    exact app_inv_congr (nav_select_last_project _) ha
  · simp only [Option.some.injEq, Prod.mk.injEq] at h
    obtain ⟨hb, -⟩ := h
    subst hb
    exact inv_select_project _ _ ha
  · simp only [Option.some.injEq, Prod.mk.injEq] at h
    obtain ⟨hb, -⟩ := h
    subst hb
    exact ha

lemma inv_handle_event (a : App) (act : Action) (env : Env) (b : App)
    (r : Option AppAction) (ha : app_inv a)
    (h : a.handle_event act env = some (b, r)) : app_inv b := by
  unfold App.handle_event at h
  split at h
  · simp only [Option.some.injEq, Prod.mk.injEq] at h
    obtain ⟨hb, -⟩ := h
    subst hb
    exact app_inv_congr rfl ha
  · split at h
    · simp only [Option.some.injEq, Prod.mk.injEq] at h
      obtain ⟨hb, -⟩ := h
      subst hb
      exact app_inv_congr rfl ha
    · split at h
      · exact inv_handle_confirm_action _ _ _ _ _ _ ha h
      · exact inv_handle_input_action _ _ _ _ _ _ ha h
      · simp only [Option.some.injEq, Prod.mk.injEq] at h
        obtain ⟨hb, -⟩ := h
        subst hb
        exact ha
      · next hview => exact inv_handle_secrets_list_action _ _ _ _ _ ha hview h
      · next hview => exact inv_handle_secret_detail_action _ _ _ _ _ ha hview h
      · exact inv_handle_project_selector_action _ _ _ _ _ ha h

/-- Three-step run used to refute the claimed iff: load the secrets list,
enter the detail view of the loaded secret, then go back. -/
def c1_run : Option App :=
  ((App.new (some "p")).handle_event Action.Refresh ok_env).bind
    (fun x => (x.1.handle_event Action.Enter ok_env).bind
      (fun y => (y.1.handle_event Action.Back ok_env).map (fun z => z.1)))

/-- Counterexample to C1 as stated: starting from the initial state and
dispatching Refresh, Enter, Back through `handle_event`, the application is
back on `SecretsList` while `current_secret` is still `Some` — `go_back` does
not clear `current_secret`, so the "only if" direction of the claimed iff
fails. -/
theorem C1_secret_iff_counterexample :
    c1_run.map (fun a => a.current_view) = some View.SecretsList ∧
    c1_run.map (fun a => a.current_secret) = some (some (mock_secret "alpha")) ∧
    c1_run.map (fun a => decide (secret_iff_claim a)) = some false := by
  refine ⟨?_, ?_, ?_⟩ <;> decide

/-- C1 (amended): the "if" direction of the claimed invariant holds and is
preserved: in the initial state and after every non-panicking action
dispatched through `handle_event`, whenever `current_view` is `SecretDetail`,
`Input(NewVersionValue)`, or a `Confirm`/`Input` view whose recorded previous
view is `SecretDetail`, `current_secret` is `Some`.  (The converse fails,
because `go_back` and project-selector round trips leave `current_secret`
set; see the counterexample.)  Stated via the inductive invariant `app_inv`:
initial states satisfy it, `handle_event` preserves it, and it implies the
"if" direction `secret_if_spec`. -/
theorem C1_current_secret_invariant :
    (∀ pid : Option String, app_inv (App.new pid)) ∧
    (∀ (a : App) (act : Action) (env : Env) (b : App) (r : Option AppAction),
      app_inv a → a.handle_event act env = some (b, r) → app_inv b) ∧
    (∀ a : App, app_inv a → secret_if_spec a) := by
  refine ⟨?_, fun a act env b r ha h => inv_handle_event a act env b r ha h, ?_⟩
  · intro pid
    cases pid <;>
      exact ⟨by simp [App.new], by simp [App.new], by simp [App.new],
        by unfold prev_ok; simp [App.new]⟩
  · rintro a ⟨h1, h2, h3, h4⟩ (hd | hnv | ⟨hci, hpd⟩)
    · exact h1 hd
    · exact h2 hnv
    · exact h3 hpd

/-- Witness for the amended C1: the invariant holds initially and is carried
through the Refresh step of the concrete run. -/
theorem C1_current_secret_invariant_witness :
    app_inv (App.new (some "p")) ∧
    ((App.new (some "p")).handle_event Action.Refresh ok_env).map
        (fun x => decide (app_inv x.1)) = some true := by
  constructor
  · exact C1_current_secret_invariant.1 (some "p")
  · rcases hx : (App.new (some "p")).handle_event Action.Refresh ok_env with _ | x
    · exact absurd hx (by decide)
    · have hinv := C1_current_secret_invariant.2.1 (App.new (some "p")) Action.Refresh ok_env
        x.1 x.2 (C1_current_secret_invariant.1 (some "p")) (by rw [hx])
      simp only [Option.map_some', Option.some.injEq, decide_eq_true_eq]
      exact hinv

/-! ### Claim C2 -/

/-- Input state used for the C2 counterexample. -/
def c2_app : App :=
  { App.new (some "p") with
    current_view := View.Input InputMode.NewSecretName
    previous_view := some View.SecretsList
    client := some "p"
    input_buffer := "valid-name" }

/-- Environment in which only `create_secret` fails. -/
def c2_env : Env := { ok_env with create_secret := Except.error "boom" }

/-- Counterexample to C2 as stated: a failing `create_secret` does set an
error status but does not leave `current_view` unchanged — the input session
is abandoned and the view returns to the prior view (`SecretsList`). -/
theorem C2_view_unchanged_counterexample :
    c2_app.current_view = View.Input InputMode.NewSecretName ∧
    (c2_app.handle_event Action.Enter c2_env).map (fun x => x.1.current_view) =
      some View.SecretsList ∧
    (c2_app.handle_event Action.Enter c2_env).map (fun x => x.1.status) =
      some (some { text := "Failed to create secret: boom", is_error := true }) := by
  refine ⟨rfl, ?_, ?_⟩ <;> decide

/-- C2 (amended): every failing client call sets an error status; failures of
`load_versions`, `enable_version`, `disable_version` and `access_version`
(reveal and copy) leave `current_view` unchanged; failures of the calls
issued from a modal view — `create_secret`, `add_version`, `delete_secret`,
`destroy_version` — abandon the modal and return to the prior view; failures
of `load_secrets` and `load_projects` escalate `current_view` to
`AuthRequired`. -/
theorem C2_error_handling :
    (∀ (a : App) (env : Env) (s : SecretInfo) (cl e : String),
      a.current_secret = some s → a.client = some cl →
      env.list_versions = Except.error e →
      a.load_versions env =
        some { a with
               status := some { text := s!"Error loading versions: {e}", is_error := true }
               is_loading := false }) ∧
    (∀ (a : App) (env : Env) (i : Nat) (v : VersionInfo) (s : SecretInfo) (cl e : String),
      a.current_secret = some s → a.versions_state = some i → a.versions[i]? = some v →
      v.state = VersionState.Disabled → a.client = some cl →
      env.enable_version = Except.error e →
      a.enable_selected_version env =
        some { a with
               status := some { text := s!"Failed to enable: {e}", is_error := true }
               is_loading := false }) ∧
    (∀ (a : App) (env : Env) (i : Nat) (v : VersionInfo) (s : SecretInfo) (cl e : String),
      a.current_secret = some s → a.versions_state = some i → a.versions[i]? = some v →
      v.state = VersionState.Enabled → a.client = some cl →
      env.disable_version = Except.error e →
      a.disable_selected_version env =
        some { a with
               status := some { text := s!"Failed to disable: {e}", is_error := true }
               is_loading := false }) ∧
    (∀ (a : App) (env : Env) (i : Nat) (v : VersionInfo) (s : SecretInfo) (cl e : String),
      a.revealed_value = none → a.current_secret = some s → a.versions_state = some i →
      a.versions[i]? = some v →
      (v.state = VersionState.Enabled ∨ v.state = VersionState.Unknown) →
      a.client = some cl → env.access_version = Except.error e →
      a.toggle_secret_value env =
        some { a with
               status := some { text := s!"Failed to access: {e}", is_error := true }
               is_loading := false }) ∧
    (∀ (a : App) (env : Env) (i : Nat) (v : VersionInfo) (s : SecretInfo) (cl e : String),
      a.current_secret = some s → a.versions_state = some i → a.versions[i]? = some v →
      (v.state = VersionState.Enabled ∨ v.state = VersionState.Unknown) →
      a.client = some cl → env.access_version = Except.error e →
      a.copy_secret_value env =
        some { a with
               status := some { text := s!"Failed to access: {e}", is_error := true }
               is_loading := false }) ∧
    (∀ (a : App) (env : Env) (cl e : String),
      a.input_buffer ≠ "" → validate_secret_name a.input_buffer = Except.ok () →
      a.client = some cl → env.create_secret = Except.error e →
      (a.submit_input InputMode.NewSecretName env).map (fun b => b.status) =
        some (some { text := s!"Failed to create secret: {e}", is_error := true }) ∧
      (a.submit_input InputMode.NewSecretName env).map (fun b => b.current_view) =
        some (a.previous_view.getD View.SecretsList) ∧
      (a.submit_input InputMode.NewSecretName env).map (fun b => b.previous_view) =
        some none) ∧
    (∀ (a : App) (env : Env) (s : SecretInfo) (cl e : String),
      a.input_buffer ≠ "" → a.current_secret = some s →
      a.client = some cl → env.add_version = Except.error e →
      (a.submit_input InputMode.NewVersionValue env).map (fun b => b.status) =
        some (some { text := s!"Failed to add version: {e}", is_error := true }) ∧
      (a.submit_input InputMode.NewVersionValue env).map (fun b => b.current_view) =
        some (a.previous_view.getD View.SecretsList) ∧
      (a.submit_input InputMode.NewVersionValue env).map (fun b => b.previous_view) =
        some none) ∧
    (∀ (a : App) (env : Env) (nm cl e : String),
      a.client = some cl → env.delete_secret = Except.error e →
      (a.execute_confirmed_action (ConfirmAction.DeleteSecret nm) env).map
          (fun b => b.status) =
        some (some { text := s!"Failed to delete: {e}", is_error := true }) ∧
      (a.execute_confirmed_action (ConfirmAction.DeleteSecret nm) env).map
          (fun b => b.current_view) =
        some (a.previous_view.getD View.SecretsList) ∧
      (a.execute_confirmed_action (ConfirmAction.DeleteSecret nm) env).map
          (fun b => b.previous_view) = some none) ∧
    (∀ (a : App) (env : Env) (sn ver cl e : String),
      a.client = some cl → env.destroy_version = Except.error e →
      (a.execute_confirmed_action (ConfirmAction.DestroyVersion sn ver) env).map
          (fun b => b.status) =
        some (some { text := s!"Failed to destroy: {e}", is_error := true }) ∧
      (a.execute_confirmed_action (ConfirmAction.DestroyVersion sn ver) env).map
          (fun b => b.current_view) =
        some (a.previous_view.getD View.SecretsList) ∧
      (a.execute_confirmed_action (ConfirmAction.DestroyVersion sn ver) env).map
          (fun b => b.previous_view) = some none) ∧
    (∀ (a : App) (env : Env) (cl e : String),
      a.client = some cl → env.list_secrets = Except.error e →
      a.load_secrets env =
        { a with
          status := some { text := s!"Auth error: {e}", is_error := true }
          current_view := View.AuthRequired
          is_loading := false }) ∧
    (∀ (a : App) (env : Env) (e : String),
      env.list_projects = Except.error e →
      a.load_projects env =
        { a with
          status := some { text := s!"Auth error: {e}", is_error := true }
          current_view := View.AuthRequired
          is_loading := false }) := by
  refine ⟨?_, ?_, ?_, ?_, ?_, ?_, ?_, ?_, ?_, ?_, ?_⟩
  · intro a env s cl e hcs hcl he
    simp [App.load_versions, App.set_status, hcs, hcl, he]
  · intro a env i v s cl e hcs hvs hv hst hcl he
    simp [App.enable_selected_version, App.set_status, hcs, hvs, hv, hst, hcl, he]
  · intro a env i v s cl e hcs hvs hv hst hcl he
    simp [App.disable_selected_version, App.set_status, hcs, hvs, hv, hst, hcl, he]
  · rintro a env i v s cl e hrev hcs hvs hv (hst | hst) hcl he <;>
      · have hrevb : a.revealed_value.isSome = false := by simp [hrev]
        simp [App.toggle_secret_value, App.set_status, hrevb, hcs, hvs, hv, hst, hcl, he]
  · rintro a env i v s cl e hcs hvs hv (hst | hst) hcl he <;>
      simp [App.copy_secret_value, App.set_status, hcs, hvs, hv, hst, hcl, he]
  · intro a env cl e hne hval hcl he
    have hb : a.input_buffer.isEmpty = false := by
      rw [Bool.eq_false_iff]
      intro hx
      exact hne ((String.isEmpty_iff _).1 hx)
    cases hpv : a.previous_view <;>
      · refine ⟨?_, ?_, ?_⟩ <;>
          simp [App.submit_input, App.set_status, App.go_back, hb, hval, hcl, he, hpv]
  · intro a env s cl e hne hcs hcl he
    have hb : a.input_buffer.isEmpty = false := by
      rw [Bool.eq_false_iff]
      intro hx
      exact hne ((String.isEmpty_iff _).1 hx)
    cases hpv : a.previous_view <;>
      · refine ⟨?_, ?_, ?_⟩ <;>
          simp [App.submit_input, App.set_status, App.go_back, hb, hcs, hcl, he, hpv]
  · intro a env nm cl e hcl he
    cases hpv : a.previous_view <;>
      · refine ⟨?_, ?_, ?_⟩ <;>
          simp [App.execute_confirmed_action, App.set_status, App.go_back, hcl, he, hpv]
  · intro a env sn ver cl e hcl he
    cases hpv : a.previous_view <;>
      · refine ⟨?_, ?_, ?_⟩ <;>
          simp [App.execute_confirmed_action, App.set_status, App.go_back, hcl, he, hpv]
  · intro a env cl e hcl he
    simp [App.load_secrets, App.load_secrets_fetch, App.set_status, hcl, he]
  · intro a env e he
    simp [App.load_projects, App.set_status, he]

/-- Environment in which only `list_versions` fails. -/
def c2_env2 : Env := { ok_env with list_versions := Except.error "boom" }

/-- Witness for the amended C2: a failing `load_versions` keeps the view. -/
theorem C2_error_handling_witness :
    c4_app.client = some "p" ∧
    c2_env2.list_versions = Except.error "boom" ∧
    c4_app.load_versions c2_env2 =
      some { c4_app with
             status := some { text := "Error loading versions: boom", is_error := true }
             is_loading := false } :=
  ⟨rfl, rfl, by
    have h := C2_error_handling.1 c4_app c2_env2 (mock_secret "alpha") "p" "boom"
      rfl rfl rfl
    simpa using h⟩

/-! ### Claim C3 -/

/-- Detail-view state with the client handle absent, used to refute C3. -/
def c3_app : App :=
  { App.new (some "p") with
    current_view := View.SecretDetail
    previous_view := some View.SecretsList
    current_secret := some (mock_secret "alpha") }

/-- Counterexample to C3 as stated: `load_versions` does not obtain the
client lazily — invoked with the client absent (Refresh in the detail view)
it reaches the `unwrap` panic, modelled as `none`. -/
theorem C3_lazy_client_counterexample :
    c3_app.client = none ∧
    c3_app.handle_event Action.Refresh ok_env = none :=
  ⟨rfl, by decide⟩

/-- C3 (amended): only `load_secrets` obtains the client lazily — when the
handle is absent it is constructed from the active project id before the
call, and a construction failure sets an error status and switches
`current_view` to `AuthRequired` without attempting the list call.  The
other entry points do not: `load_versions` (with a current secret) and the
create path of `submit_input` unwrap the absent client and panic. -/
theorem C3_lazy_client :
    (∀ (a : App) (env : Env) (e : String),
      a.client = none → env.new_client = Except.error e →
      a.load_secrets env =
        { a with
          status := some { text := s!"Auth error: {e}", is_error := true }
          current_view := View.AuthRequired
          is_loading := false }) ∧
    (∀ (a : App) (env : Env),
      a.client = none → env.new_client = Except.ok () →
      (a.load_secrets env).client = some a.project_id) ∧
    (∀ (a : App) (env : Env) (s : SecretInfo),
      a.client = none → a.current_secret = some s →
      a.load_versions env = none) ∧
    (∀ (a : App) (env : Env),
      a.client = none → a.input_buffer ≠ "" →
      validate_secret_name a.input_buffer = Except.ok () →
      a.submit_input InputMode.NewSecretName env = none) := by
  refine ⟨?_, ?_, ?_, ?_⟩
  · intro a env e hcl he
    simp [App.load_secrets, App.set_status, hcl, he]
  · intro a env hcl hok
    cases hls : env.list_secrets with
    | error e =>
      simp [App.load_secrets, App.load_secrets_fetch, App.set_status, hcl, hok, hls]
    | ok secrets =>
      by_cases hemp : secrets.isEmpty = true <;>
        simp [App.load_secrets, App.load_secrets_fetch, App.set_status, hcl, hok, hls, hemp]
  · intro a env s hcl hcs
    simp [App.load_versions, App.set_status, hcl, hcs]
  · intro a env hcl hne hval
    have hb : a.input_buffer.isEmpty = false := by
      rw [Bool.eq_false_iff]
      intro hx
      exact hne ((String.isEmpty_iff _).1 hx)
    simp [App.submit_input, hb, hval, hcl]

/-- Environment in which client construction fails. -/
def c3_env : Env := { ok_env with new_client := Except.error "no creds" }

/-- Witness for the amended C3: with the client absent and construction
failing, `load_secrets` escalates to `AuthRequired` without calling out. -/
theorem C3_lazy_client_witness :
    (App.new (some "p")).client = none ∧
    (App.new (some "p")).load_secrets c3_env =
      { App.new (some "p") with
        status := some { text := "Auth error: no creds", is_error := true }
        current_view := View.AuthRequired
        is_loading := false } :=
  ⟨rfl, by
    have h := C3_lazy_client.1 (App.new (some "p")) c3_env "no creds" rfl rfl
    simpa using h⟩

end Gsmtui
